import Mathlib

/-!
# Verification of the photasm Exif/IPTC metadata reconciliation engine

Shallow embedding of `photos/image_metadata.py` and the sync/thumbnail
methods of the `Photo` model in `photos/models.py`.

Python values that flow through the reconciliation code (strings, ints,
dates, times, datetimes, keyword lists/tuples, and `None`) are modelled by
the inductive type `PyVal`.  The pyexiv2 image-metadata handle is modelled
by `Image`: an association list of tag keys to values, plus the set of keys
whose deletion raises the spurious `TypeError` of pyexiv2 bug 343403.
Assigning `None` to a key removes the tag (that is what the pyexiv2
workaround in `_del_img_key` relies on), and writing a datetime stores it
truncated to whole seconds (the doctests in the source record that image
metadata has no sub-second precision).
-/

set_option maxHeartbeats 1000000
set_option maxRecDepth 10000

namespace Photasm

/-- Calendar date (`datetime.date`). -/
structure PDate where
  year : Nat
  month : Nat
  day : Nat
deriving DecidableEq, Repr

/-- Wall-clock time (`datetime.time`); the values stored in IPTC time tags
carry no sub-second part.  The code strips `tzinfo` on every read and the
model is timezone-free throughout. -/
structure PTime where
  hour : Nat
  minute : Nat
  sec : Nat
deriving DecidableEq, Repr

/-- Combined date and time (`datetime.datetime`), with a microsecond field
so that the whole-second truncation done by the code is observable. -/
structure PDateTime where
  date : PDate
  time : PTime
  micro : Nat
deriving DecidableEq, Repr

/-- `d.replace(microsecond=0)`. -/
def PDateTime.truncMicro (d : PDateTime) : PDateTime :=
  { d with micro := 0 }

/-- The Python values handled by the reconciliation code.  `list` and
`tuple` both model sequences of keyword strings (pyexiv2 hands multi-value
IPTC tags back as tuples); in Python a list never equals a tuple, which the
distinct constructors reproduce. -/
inductive PyVal where
  | none
  | text (s : String)
  | int (n : Int)
  | dt (d : PDateTime)
  | date (d : PDate)
  | time (t : PTime)
  | list (l : List String)
  | tuple (l : List String)
deriving DecidableEq, Repr

/-- `len(v)`: `some` for strings and sequences, `Option.none` where Python
raises `TypeError` (ints, dates, datetimes, `None`). -/
def pyLen : PyVal → Option Nat
  | .text s => some s.length
  | .list l => some l.length
  | .tuple l => some l.length
  | _ => Option.none

/-- `_collapse_empty_to_none` (image_metadata.py line 124): a value with
length zero collapses to `None`; everything else passes through. -/
def _collapse_empty_to_none (value : PyVal) : PyVal :=
  match pyLen value with
  | some 0 => PyVal.none
  | _ => value

/-- `_is_iter` (image_metadata.py line 92): lists and tuples are iterable,
strings deliberately are not. -/
def _is_iter : PyVal → Bool
  | .list _ => true
  | .tuple _ => true
  | _ => false

/-- The result of the `set(...)` conversion the sync-status engine applies
to iterable values before comparing.  A Python set is modelled by the list
of its elements compared extensionally (`nvEq`). -/
inductive NormVal where
  | scalar (v : PyVal)
  | strset (l : List String)
deriving DecidableEq, Repr

/-- `set(value) if _is_iter(value) else value`. -/
def toSetIfIter : PyVal → NormVal
  | .list l => .strset l
  | .tuple l => .strset l
  | v => .scalar v

/-- Python `==` on the converted values: sets compare by membership, a set
never equals a scalar, scalars compare by value. -/
def nvEq : NormVal → NormVal → Bool
  | .scalar a, .scalar b => decide (a = b)
  | .strset l1, .strset l2 => decide (∀ a ∈ l1, a ∈ l2) && decide (∀ a ∈ l2, a ∈ l1)
  | _, _ => false

/-- Python truthiness of the values above.  Under Python 2 (and Python
before 3.5) a `datetime.time` equal to midnight is falsy, which is the
quirk the date/time reconciliation code inherits. -/
def pyTruthy : PyVal → Bool
  | .none => false
  | .text s => decide (s.length ≠ 0)
  | .int n => decide (n ≠ 0)
  | .dt _ => true
  | .date _ => true
  | .time t => decide (t ≠ ⟨0, 0, 0⟩)
  | .list l => decide (l ≠ [])
  | .tuple l => decide (l ≠ [])

/-- `datetime.combine(date, time)`.  On operands that are not a date and a
time Python raises `TypeError`; those operands are outside the domain the
code exercises and map to `None` here. -/
def pyCombine : PyVal → PyVal → PyVal
  | .date d, .time t => .dt ⟨d, t, 0⟩
  | _, _ => PyVal.none

/-- The opened pyexiv2 metadata handle: tag assignments plus the keys whose
`del` raises the spurious `TypeError` of pyexiv2 bug 343403 (date-valued
IPTC tags, per the doctests of `_del_img_key`). -/
structure Image where
  tags : List (String × PyVal)
  typeErrOnDel : List String
deriving DecidableEq, Repr

/-- Keys of every tag currently present. -/
def Image.keys (img : Image) : List String :=
  img.tags.map Prod.fst

/-- pyexiv2 classifies a key by its family segment. -/
def isExifKey (k : String) : Bool :=
  k.data.take 5 == "Exif.".data

/-- pyexiv2 classifies a key by its family segment. -/
def isIptcKey (k : String) : Bool :=
  k.data.take 5 == "Iptc.".data

/-- `image.exifKeys()`. -/
def Image.exifKeys (img : Image) : List String :=
  img.keys.filter (fun k => isExifKey k)

/-- `image.iptcKeys()`. -/
def Image.iptcKeys (img : Image) : List String :=
  img.keys.filter (fun k => isIptcKey k)

/-- `image[key]` for a key the code has checked is present; on an absent
key the model returns `PyVal.none` (the code never reads one). -/
def Image.get (img : Image) (k : String) : PyVal :=
  (img.tags.lookup k).getD PyVal.none

/-- Removal of a tag. -/
def Image.delKey (img : Image) (k : String) : Image :=
  { img with tags := img.tags.filter (fun kv => kv.1 != k) }

/-- pyexiv2 stores datetimes truncated to whole seconds (the source's
doctests: "Metadata doesn't have microsecond precision"). -/
def storeVal : PyVal → PyVal
  | .dt d => .dt d.truncMicro
  | v => v

/-- `image[key] = value`.  Assigning `None` removes the tag, which is what
the `_del_img_key` workaround for pyexiv2 bug 343403 relies on. -/
def Image.set (img : Image) (k : String) (v : PyVal) : Image :=
  match v with
  | .none => img.delKey k
  | v => { img with tags := (k, storeVal v) :: img.tags.filter (fun kv => kv.1 != k) }

/-- Outcome of a raw `del image[key]`. -/
inductive DelResult where
  | ok (img : Image)
  | typeError
  | keyError

/-- Raw `del image[key]`: `KeyError` on an absent key, the spurious
`TypeError` of pyexiv2 bug 343403 on the quirky keys, plain removal
otherwise. -/
def Image.delRaw (img : Image) (k : String) : DelResult :=
  if k ∈ img.keys then
    if k ∈ img.typeErrOnDel then .typeError else .ok (img.delKey k)
  else .keyError

/-- `_del_img_key` (image_metadata.py line 155): `del image[key]`,
swallowing `KeyError` and working around the `TypeError` quirk by
assigning `None`. -/
def _del_img_key (image : Image) (metadata_key : String) : Image :=
  match image.delRaw metadata_key with
  | .ok img => img
  | .typeError => image.set metadata_key PyVal.none
  | .keyError => image

/-- All stored tags carry a real value: pyexiv2 never hands back a present
tag whose value is `None` (assigning `None` removes the tag). -/
def Image.WF (img : Image) : Prop :=
  ∀ kv ∈ img.tags, kv.2 ≠ PyVal.none

/-! ## Sync-status engine (image_metadata.py lines 220-645) -/

/-- `_metadata_value_synced_with_file` (line 220): read the tag if its key
is listed by `keys_method`, collapse an empty caller value to `None`,
convert iterable values on both sides to unordered sets, compare. -/
def _metadata_value_synced_with_file (value : PyVal) (image : Image)
    (metadata_key : String) (keys_method : Image → List String) : Bool :=
  let metadata_value :=
    if metadata_key ∈ keys_method image then image.get metadata_key else PyVal.none
  let value := _collapse_empty_to_none value
  nvEq (toSetIfIter value) (toSetIfIter metadata_value)

/-- `value_synced_with_exif` (line 302). -/
def value_synced_with_exif (value : PyVal) (image : Image) (metadata_key : String) : Bool :=
  _metadata_value_synced_with_file value image metadata_key Image.exifKeys

/-- `value_synced_with_iptc` (line 360). -/
def value_synced_with_iptc (value : PyVal) (image : Image) (metadata_key : String) : Bool :=
  _metadata_value_synced_with_file value image metadata_key Image.iptcKeys

/-- `value_synced_with_exif_and_iptc` (line 433): read both tags, collapse
the empty caller value to `None`, and compare the raw values — against the
IPTC value when Exif is absent, against the Exif value when IPTC is absent,
three-way when both are present.  Note there is no set conversion here. -/
def value_synced_with_exif_and_iptc (value : PyVal) (image : Image)
    (exif_key iptc_key : String) : Bool :=
  let exif_value := if exif_key ∈ image.exifKeys then image.get exif_key else PyVal.none
  let iptc_value := if iptc_key ∈ image.iptcKeys then image.get iptc_key else PyVal.none
  let value := _collapse_empty_to_none value
  if exif_value = PyVal.none then decide (value = iptc_value)
  else if iptc_value = PyVal.none then decide (value = exif_value)
  else decide (value = exif_value ∧ value = iptc_value)

/-- `datetime_value.replace(microsecond=0, tzinfo=None)` under the
`AttributeError` guard of the code: `None` (and any non-datetime) passes
through unchanged. -/
def truncDT : PyVal → PyVal
  | .dt d => .dt d.truncMicro
  | v => v

/-- `datetime_synced_with_exif_and_iptc` (line 534): truncate the caller
value to whole seconds, read the Exif combined tag and the two IPTC tags,
combine the IPTC pair only when both parts are truthy (midnight is falsy),
then apply the same three-way comparison as the generic predicate. -/
def datetime_synced_with_exif_and_iptc (datetime_value : PyVal) (image : Image)
    (exif_datetime_key iptc_date_key iptc_time_key : String) : Bool :=
  let datetime_value := truncDT datetime_value
  let exif_datetime_value :=
    if exif_datetime_key ∈ image.exifKeys then image.get exif_datetime_key else PyVal.none
  let iptc_date_value :=
    if iptc_date_key ∈ image.iptcKeys then image.get iptc_date_key else PyVal.none
  let iptc_time_value :=
    if iptc_time_key ∈ image.iptcKeys then image.get iptc_time_key else PyVal.none
  let iptc_datetime_value :=
    if pyTruthy iptc_date_value && pyTruthy iptc_time_value then
      pyCombine iptc_date_value iptc_time_value
    else PyVal.none
  if exif_datetime_value = PyVal.none then decide (datetime_value = iptc_datetime_value)
  else if iptc_datetime_value = PyVal.none then decide (datetime_value = exif_datetime_value)
  else decide (datetime_value = exif_datetime_value ∧ datetime_value = iptc_datetime_value)

/-! ## Sync-write engine (image_metadata.py lines 647-1101) -/

/-- `_sync_metadata_value_to_file` (line 647): no-op when already synced;
otherwise delete the key when the value is `None` or zero-length, else
store the value.  Returns whether a mutation happened, with the image it
produced. -/
def _sync_metadata_value_to_file (value : PyVal) (image : Image) (metadata_key : String)
    (sync_check_func : PyVal → Image → String → Bool) : Bool × Image :=
  let mod := !sync_check_func value image metadata_key
  if mod then
    if value = PyVal.none ∨ pyLen value = some 0 then
      (mod, _del_img_key image metadata_key)
    else
      (mod, image.set metadata_key value)
  else (mod, image)

/-- `sync_value_to_exif` (line 734). -/
def sync_value_to_exif (value : PyVal) (image : Image) (metadata_key : String) : Bool × Image :=
  _sync_metadata_value_to_file value image metadata_key value_synced_with_exif

/-- `sync_value_to_iptc` (line 798). -/
def sync_value_to_iptc (value : PyVal) (image : Image) (metadata_key : String) : Bool × Image :=
  _sync_metadata_value_to_file value image metadata_key value_synced_with_iptc

/-- `sync_value_to_exif_and_iptc` (line 883): when out of sync, delete or
set the Exif key by the same empty-collapse rule, then unconditionally
delete the IPTC key if it exists. -/
def sync_value_to_exif_and_iptc (value : PyVal) (image : Image)
    (exif_key iptc_key : String) : Bool × Image :=
  let mod := !value_synced_with_exif_and_iptc value image exif_key iptc_key
  if mod then
    let image :=
      if value = PyVal.none ∨ pyLen value = some 0 then _del_img_key image exif_key
      else image.set exif_key value
    let image :=
      if iptc_key ∈ image.iptcKeys then _del_img_key image iptc_key else image
    (mod, image)
  else (mod, image)

/-- `sync_datetime_to_exif_and_iptc` (line 990): when out of sync, set the
Exif combined tag (or delete it for a `None` value), then delete both IPTC
tags if they exist. -/
def sync_datetime_to_exif_and_iptc (datetime_value : PyVal) (image : Image)
    (exif_datetime_key iptc_date_key iptc_time_key : String) : Bool × Image :=
  let mod := !datetime_synced_with_exif_and_iptc datetime_value image
    exif_datetime_key iptc_date_key iptc_time_key
  if mod then
    let image :=
      if datetime_value ≠ PyVal.none then image.set exif_datetime_key datetime_value
      else _del_img_key image exif_datetime_key
    let image :=
      if iptc_date_key ∈ image.iptcKeys then _del_img_key image iptc_date_key else image
    let image :=
      if iptc_time_key ∈ image.iptcKeys then _del_img_key image iptc_time_key else image
    (mod, image)
  else (mod, image)

/-! ## Merged reads (image_metadata.py lines 1104-1291) -/

/-- `read_value_from_exif_and_iptc` (line 1104): the Exif value unless it
is absent, else the IPTC value. -/
def read_value_from_exif_and_iptc (image : Image) (exif_key iptc_key : String) : PyVal :=
  let exif_value := if exif_key ∈ image.exifKeys then image.get exif_key else PyVal.none
  let iptc_value := if iptc_key ∈ image.iptcKeys then image.get iptc_key else PyVal.none
  if exif_value = PyVal.none then iptc_value else exif_value

/-- `read_datetime_from_exif_and_iptc` (line 1175): the Exif combined value
unless absent; else the IPTC date and time combined when both are truthy,
else `None`. -/
def read_datetime_from_exif_and_iptc (image : Image)
    (exif_datetime_key iptc_date_key iptc_time_key : String) : PyVal :=
  let exif_datetime_value :=
    if exif_datetime_key ∈ image.exifKeys then image.get exif_datetime_key else PyVal.none
  let iptc_date_value :=
    if iptc_date_key ∈ image.iptcKeys then image.get iptc_date_key else PyVal.none
  let iptc_time_value :=
    if iptc_time_key ∈ image.iptcKeys then image.get iptc_time_key else PyVal.none
  if exif_datetime_value = PyVal.none then
    if pyTruthy iptc_date_value && pyTruthy iptc_time_value then
      pyCombine iptc_date_value iptc_time_value
    else PyVal.none
  else exif_datetime_value

/-! ## Tag key resolver (image_metadata.py lines 6-45) -/

/-- `get_image_width_key`. -/
def get_image_width_key (img_is_jpeg : Bool) : String :=
  if img_is_jpeg then "Exif.Photo.PixelXDimension" else "Exif.Image.ImageWidth"

/-- `get_image_height_key`. -/
def get_image_height_key (img_is_jpeg : Bool) : String :=
  if img_is_jpeg then "Exif.Photo.PixelYDimension" else "Exif.Image.ImageLength"

/-! ## The Photo record and its world (photos/models.py) -/

/-- The fields of the `Photo` model that the reconciliation engine reads
and writes.  `keywords` holds what `get_keywords()` returns: the names of
the record's `PhotoTag`s, in order. -/
structure Photo where
  description : String
  artist : String
  country : String
  province_state : String
  city : String
  location : String
  time_created : Option PDateTime
  keywords : List String
  image_width : Int
  image_height : Int
  is_jpeg : Bool
  metadata_sync_enabled : Bool
deriving DecidableEq, Repr

/-- Opening and parsing the image's metadata container either yields the
parsed `Image` or raises `IOError`. -/
inductive ReadResult where
  | ioError
  | ok (img : Image)
deriving DecidableEq, Repr

/-- The state outside the record: the image file's metadata (as it would
parse on open), whether `writeMetadata` succeeds, and the global `PhotoTag`
table (tag names, for the case-insensitive get-or-create of
`set_keywords`). -/
structure World where
  file : ReadResult
  flushOk : Bool
  tagTable : List String
deriving DecidableEq, Repr

/-- `Photo.set_keywords` (models.py line 256): clear, then for each keyword
look the name up case-insensitively in the `PhotoTag` table; create a tag
on no match, skip the keyword when several tags match, add the (existing)
tag otherwise.  Returns the record's new keyword-name list and the table. -/
def set_keywords (table : List String) (kws : List String) : List String × List String :=
  kws.foldl
    (fun acc kw =>
      match acc.2.filter (fun t => t.toLower == kw.toLower) with
      | [] => (acc.1 ++ [kw], acc.2 ++ [kw])
      | [t] => (acc.1 ++ [t], acc.2)
      | _ => (acc.1, acc.2))
    ([], table)

/-- `self.time_created` as the Python value handed to the sync engine. -/
def optDT : Option PDateTime → PyVal
  | some d => .dt d
  | Option.none => PyVal.none

/-- Assigning a merged datetime read back into `self.time_created`. -/
def toOptDT : PyVal → Option PDateTime
  | .dt d => some d
  | _ => Option.none

/-- `if value is None: value = str()` before assigning a text field.  The
tags these fields read hold strings, so every other shape is outside the
exercised domain and also maps to the empty string. -/
def textOrEmpty : PyVal → String
  | .text s => s
  | _ => ""

/-- The elements `set_keywords` iterates over when handed a stored keyword
tag (pyexiv2 returns multi-value tags as tuples of strings); non-sequences
raise in Python and are outside the exercised domain. -/
def seqElems : PyVal → List String
  | .list l => l
  | .tuple l => l
  | _ => []

def descExifKey : String := "Exif.Image.ImageDescription"
def descIptcKey : String := "Iptc.Application2.Caption"
def artistExifKey : String := "Exif.Image.Artist"
def artistIptcKey : String := "Iptc.Application2.Byline"
def countryIptcKey : String := "Iptc.Application2.CountryName"
def provinceIptcKey : String := "Iptc.Application2.ProvinceState"
def cityIptcKey : String := "Iptc.Application2.City"
def locationIptcKey : String := "Iptc.Application2.SubLocation"
def dtExifKey : String := "Exif.Photo.DateTimeOriginal"
def dtDateIptcKey : String := "Iptc.Application2.DateCreated"
def dtTimeIptcKey : String := "Iptc.Application2.TimeCreated"
def kwIptcKey : String := "Iptc.Application2.Keywords"

/-- The field-by-field body of `Photo.sync_metadata_to_file` (models.py
lines 682-726): one sync-write per field in the fixed order, accumulating
`mod = sync(...) or mod`. -/
def to_file_core (p : Photo) (img : Image) : Bool × Image :=
  let r1 := sync_value_to_exif_and_iptc (.text p.description) img descExifKey descIptcKey
  let mod := r1.1 || false
  let r2 := sync_value_to_exif_and_iptc (.text p.artist) r1.2 artistExifKey artistIptcKey
  let mod := r2.1 || mod
  let r3 := sync_value_to_iptc (.text p.country) r2.2 countryIptcKey
  let mod := r3.1 || mod
  let r4 := sync_value_to_iptc (.text p.province_state) r3.2 provinceIptcKey
  let mod := r4.1 || mod
  let r5 := sync_value_to_iptc (.text p.city) r4.2 cityIptcKey
  let mod := r5.1 || mod
  let r6 := sync_value_to_iptc (.text p.location) r5.2 locationIptcKey
  let mod := r6.1 || mod
  let r7 := sync_datetime_to_exif_and_iptc (optDT p.time_created) r6.2
    dtExifKey dtDateIptcKey dtTimeIptcKey
  let mod := r7.1 || mod
  let r8 := sync_value_to_iptc (.list p.keywords) r7.2 kwIptcKey
  let mod := r8.1 || mod
  let r9 := sync_value_to_exif (.int p.image_width) r8.2 (get_image_width_key p.is_jpeg)
  let mod := r9.1 || mod
  let r10 := sync_value_to_exif (.int p.image_height) r9.2 (get_image_height_key p.is_jpeg)
  let mod := r10.1 || mod
  (mod, r10.2)

/-- `Photo.sync_metadata_to_file` (models.py line 501): no-op when sync is
disabled; a parse failure or, after a mutation, a flush failure flips the
circuit breaker, persists the record and returns `False`; otherwise the
flushed file and the mutation flag are returned. -/
def sync_metadata_to_file (p : Photo) (w : World) : Bool × Photo × World :=
  if p.metadata_sync_enabled = false then (false, p, w)
  else
    match w.file with
    | .ioError => (false, { p with metadata_sync_enabled := false }, w)
    | .ok img =>
      let r := to_file_core p img
      if r.1 then
        if w.flushOk then (true, p, { w with file := .ok r.2 })
        else (false, { p with metadata_sync_enabled := false }, w)
      else (false, p, w)

/-- `Photo.sync_metadata_from_file` (models.py line 738): for each field,
compute the sync status against the (read-only) container; when out of
sync, assign the merged read for the dual fields (empty string for `None`),
assign the IPTC value for the IPTC-only fields but only when the IPTC key
is present, assign the merged datetime, and run `set_keywords` on a present
keywords tag.  Returns whether the record changed.  (`commit` only chooses
whether `self.save()` runs at the end; the record state this model returns
is the same either way, so the parameter is carried but unused.) -/
def sync_metadata_from_file (p : Photo) (w : World) (commit : Bool) : Bool × Photo × World :=
  if p.metadata_sync_enabled = false then (false, p, w)
  else
    match w.file with
    | .ioError => (false, { p with metadata_sync_enabled := false }, w)
    | .ok img =>
      let modDesc := !value_synced_with_exif_and_iptc (.text p.description) img descExifKey descIptcKey
      let p := if modDesc then
          { p with description := textOrEmpty (read_value_from_exif_and_iptc img descExifKey descIptcKey) }
        else p
      let modArtist := !value_synced_with_exif_and_iptc (.text p.artist) img artistExifKey artistIptcKey
      let p := if modArtist then
          { p with artist := textOrEmpty (read_value_from_exif_and_iptc img artistExifKey artistIptcKey) }
        else p
      let modCountry := !value_synced_with_iptc (.text p.country) img countryIptcKey
      let p := if countryIptcKey ∈ img.iptcKeys ∧ modCountry = true then
          { p with country := textOrEmpty (img.get countryIptcKey) }
        else p
      let modProvince := !value_synced_with_iptc (.text p.province_state) img provinceIptcKey
      let p := if provinceIptcKey ∈ img.iptcKeys ∧ modProvince = true then
          { p with province_state := textOrEmpty (img.get provinceIptcKey) }
        else p
      let modCity := !value_synced_with_iptc (.text p.city) img cityIptcKey
      let p := if cityIptcKey ∈ img.iptcKeys ∧ modCity = true then
          { p with city := textOrEmpty (img.get cityIptcKey) }
        else p
      let modLoc := !value_synced_with_iptc (.text p.location) img locationIptcKey
      let p := if locationIptcKey ∈ img.iptcKeys ∧ modLoc = true then
          { p with location := textOrEmpty (img.get locationIptcKey) }
        else p
      let modTime := !datetime_synced_with_exif_and_iptc (optDT p.time_created) img
        dtExifKey dtDateIptcKey dtTimeIptcKey
      let p := if modTime then
          { p with time_created := toOptDT (read_datetime_from_exif_and_iptc img
              dtExifKey dtDateIptcKey dtTimeIptcKey) }
        else p
      let modKw := !value_synced_with_iptc (.list p.keywords) img kwIptcKey
      let pw :=
        if kwIptcKey ∈ img.iptcKeys ∧ modKw = true then
          ({ p with keywords := (set_keywords w.tagTable (seqElems (img.get kwIptcKey))).1 },
           { w with tagTable := (set_keywords w.tagTable (seqElems (img.get kwIptcKey))).2 })
        else (p, w)
      let mod := modKw || (modTime || (modLoc || (modCity || (modProvince ||
        (modCountry || (modArtist || (modDesc || false)))))))
      (mod, pw.1, pw.2)

/-! ## Thumbnail synthesis (models.py lines 478-493)

The dimension arithmetic of `Photo.create_thumbnail`'s synthesis path.  The
code computes with Python floats; at every input exercised below the float
computation is exact, so the model uses real arithmetic. -/

/-- The total pixel budget `THUMB_SZ`. -/
def THUMB_SZ : ℕ := 19200

/-- `math.sqrt(THUMB_SZ) / math.sqrt(self.image_height * self.image_width)`. -/
noncomputable def thumb_sz_coefficient (w h : ℕ) : ℝ :=
  Real.sqrt THUMB_SZ / Real.sqrt (h * w)

/-- `int(round(self.image_width * thumb_sz_coefficient))`. -/
noncomputable def thumb_width (w h : ℕ) : ℤ :=
  round ((w : ℝ) * thumb_sz_coefficient w h)

/-- `int(round(self.image_height * thumb_sz_coefficient))`. -/
noncomputable def thumb_height (w h : ℕ) : ℤ :=
  round ((h : ℝ) * thumb_sz_coefficient w h)

/-- `PIL.Image.thumbnail((tw, th))`: shrink to fit the box, preserving
aspect ratio with floor division, never upscaling (external raster
library; this models its box-fit arithmetic). -/
def pil_thumbnail_fit (w h tw th : ℕ) : ℕ × ℕ :=
  let x := w
  let y := h
  let xy := if x > tw then (tw, max (y * tw / x) 1) else (x, y)
  let xy2 := if xy.2 > th then (max (xy.1 * th / xy.2) 1, th) else xy
  xy2

/-- The dimensions produced by the synthesis path of
`Photo.create_thumbnail`: resize only when the source exceeds the pixel
budget. -/
noncomputable def create_thumbnail_size (w h : ℕ) : ℕ × ℕ :=
  if w * h > THUMB_SZ then
    pil_thumbnail_fit w h (thumb_width w h).toNat (thumb_height w h).toNat
  else (w, h)

/-! ## Association-list lemmas -/

theorem lookup_cons_ne (k a : String) (b : PyVal) (l : List (String × PyVal))
    (h : ¬ k = a) : List.lookup k ((a, b) :: l) = List.lookup k l := by
  show (match k == a with | true => some b | false => List.lookup k l) = _
  rw [show (k == a) = false by simpa using h]

theorem lookup_cons_self (k : String) (v : PyVal) (l : List (String × PyVal)) :
    List.lookup k ((k, v) :: l) = some v := by
  show (match k == k with | true => some v | false => List.lookup k l) = _
  rw [beq_self_eq_true]

theorem filter_cons_out (kv : String × PyVal) (l : List (String × PyVal)) (k : String)
    (h : kv.1 = k) : (kv :: l).filter (fun kv => kv.1 != k) = l.filter (fun kv => kv.1 != k) := by
  simp [List.filter_cons, h]

theorem filter_cons_in (kv : String × PyVal) (l : List (String × PyVal)) (k : String)
    (h : ¬ kv.1 = k) :
    (kv :: l).filter (fun kv => kv.1 != k) = kv :: l.filter (fun kv => kv.1 != k) := by
  simp [List.filter_cons, bne_iff_ne, h]

theorem lk_filter_self (l : List (String × PyVal)) (k : String) :
    (l.filter (fun kv => kv.1 != k)).lookup k = Option.none := by
  induction l with
  | nil => rfl
  | cons kv rest ih =>
    obtain ⟨a, b⟩ := kv
    by_cases h : a = k
    · rw [filter_cons_out (a, b) rest k h]; exact ih
    · rw [filter_cons_in (a, b) rest k h, lookup_cons_ne k a b _ (fun he => h he.symm)]
      exact ih

theorem lk_filter_ne (l : List (String × PyVal)) (k k' : String) (h : k' ≠ k) :
    (l.filter (fun kv => kv.1 != k)).lookup k' = l.lookup k' := by
  induction l with
  | nil => rfl
  | cons kv rest ih =>
    obtain ⟨a, b⟩ := kv
    by_cases hk : a = k
    · rw [filter_cons_out (a, b) rest k hk, lookup_cons_ne k' a b rest (hk ▸ h), ih]
    · rw [filter_cons_in (a, b) rest k hk]
      by_cases hkk : k' = a
      · cases hkk; rw [lookup_cons_self, lookup_cons_self]
      · rw [lookup_cons_ne k' a b _ hkk, lookup_cons_ne k' a b _ hkk, ih]

theorem lk_none_of_not_mem (l : List (String × PyVal)) (k : String)
    (h : k ∉ l.map Prod.fst) : l.lookup k = Option.none := by
  induction l with
  | nil => rfl
  | cons kv rest ih =>
    obtain ⟨a, b⟩ := kv
    simp only [List.map_cons, List.mem_cons, not_or] at h
    rw [lookup_cons_ne k a b _ h.1]
    exact ih h.2

theorem filter_eq_self_of_not_mem (l : List (String × PyVal)) (k : String)
    (h : k ∉ l.map Prod.fst) : l.filter (fun kv => kv.1 != k) = l := by
  induction l with
  | nil => rfl
  | cons kv rest ih =>
    simp only [List.map_cons, List.mem_cons, not_or] at h
    rw [filter_cons_in kv rest k (fun he => h.1 he.symm), ih h.2]

theorem mem_map_fst_filter (l : List (String × PyVal)) (k k' : String) :
    k' ∈ (l.filter (fun kv => kv.1 != k)).map Prod.fst ↔ k' ≠ k ∧ k' ∈ l.map Prod.fst := by
  induction l with
  | nil => simp
  | cons kv rest ih =>
    by_cases hk : kv.1 = k
    · rw [filter_cons_out kv rest k hk]
      simp only [ih, List.map_cons, List.mem_cons]
      constructor
      · exact fun hc => ⟨hc.1, Or.inr hc.2⟩
      · rintro ⟨hne, h | h⟩
        · exact absurd (h.trans hk) hne
        · exact ⟨hne, h⟩
    · rw [filter_cons_in kv rest k hk]
      simp only [List.map_cons, List.mem_cons, ih]
      constructor
      · rintro (h | h)
        · exact ⟨h ▸ hk, Or.inl h⟩
        · exact ⟨h.1, Or.inr h.2⟩
      · rintro ⟨hne, h | h⟩
        · exact Or.inl h
        · exact Or.inr ⟨hne, h⟩

/-! ## Container lemmas -/

theorem get_delKey_self (img : Image) (k : String) :
    (img.delKey k).get k = PyVal.none := by
  simp [Image.delKey, Image.get, lk_filter_self]

theorem get_delKey_ne (img : Image) (k k' : String) (h : k' ≠ k) :
    (img.delKey k).get k' = img.get k' := by
  simp [Image.delKey, Image.get, lk_filter_ne _ _ _ h]

theorem get_set_self (img : Image) (k : String) (v : PyVal) (h : v ≠ PyVal.none) :
    (img.set k v).get k = storeVal v := by
  cases v <;> first
    | exact absurd rfl h
    | simp [Image.set, Image.get, lookup_cons_self]

theorem get_set_ne (img : Image) (k k' : String) (v : PyVal) (h : k' ≠ k) :
    (img.set k v).get k' = img.get k' := by
  cases v <;> first
    | exact get_delKey_ne img k k' h
    | · show (List.lookup k' ((k, _) :: _)).getD PyVal.none = _
        rw [lookup_cons_ne k' k _ _ h, lk_filter_ne _ _ _ h]
        rfl

theorem del_img_key_eq (img : Image) (k : String) :
    _del_img_key img k = img.delKey k := by
  unfold _del_img_key Image.delRaw
  by_cases hk : k ∈ img.keys
  · by_cases hq : k ∈ img.typeErrOnDel
    · simp [hk, hq, Image.set]
    · simp [hk, hq]
  · cases img with
    | mk tags quirks =>
      simp only [hk, ite_false]
      simp [Image.delKey, filter_eq_self_of_not_mem _ _ hk]

theorem mem_keys_delKey (img : Image) (k k' : String) :
    k' ∈ (img.delKey k).keys ↔ k' ≠ k ∧ k' ∈ img.keys := by
  exact mem_map_fst_filter img.tags k k'

theorem mem_keys_set (img : Image) (k k' : String) (v : PyVal) (h : v ≠ PyVal.none) :
    k' ∈ (img.set k v).keys ↔ k' = k ∨ (k' ≠ k ∧ k' ∈ img.keys) := by
  cases v <;> first
    | exact absurd rfl h
    | · show k' ∈ List.map Prod.fst ((k, _) :: _) ↔ _
        simp only [List.map_cons, List.mem_cons, mem_map_fst_filter]
        exact Iff.rfl

theorem get_none_of_not_mem (img : Image) (k : String) (h : k ∉ img.keys) :
    img.get k = PyVal.none := by
  simp [Image.get, lk_none_of_not_mem _ _ h]

theorem mem_exifKeys (img : Image) (k : String) :
    k ∈ img.exifKeys ↔ isExifKey k = true ∧ k ∈ img.keys := by
  simp [Image.exifKeys, List.mem_filter, and_comm]

theorem mem_iptcKeys (img : Image) (k : String) :
    k ∈ img.iptcKeys ↔ isIptcKey k = true ∧ k ∈ img.keys := by
  simp [Image.iptcKeys, List.mem_filter, and_comm]

theorem exif_read_char (img : Image) (k : String) :
    (if k ∈ img.exifKeys then img.get k else PyVal.none) =
      (if isExifKey k = true then img.get k else PyVal.none) := by
  by_cases he : isExifKey k = true
  · by_cases hm : k ∈ img.keys
    · simp [mem_exifKeys, he, hm]
    · simp [mem_exifKeys, hm, get_none_of_not_mem _ _ hm]
  · simp [mem_exifKeys, he]

theorem iptc_read_char (img : Image) (k : String) :
    (if k ∈ img.iptcKeys then img.get k else PyVal.none) =
      (if isIptcKey k = true then img.get k else PyVal.none) := by
  by_cases he : isIptcKey k = true
  · by_cases hm : k ∈ img.keys
    · simp [mem_iptcKeys, he, hm]
    · simp [mem_iptcKeys, hm, get_none_of_not_mem _ _ hm]
  · simp [mem_iptcKeys, he]

theorem get_del_img_self (img : Image) (k : String) :
    (_del_img_key img k).get k = PyVal.none := by
  rw [del_img_key_eq]; exact get_delKey_self _ _

theorem get_del_img_ne (img : Image) (k k' : String) (h : k' ≠ k) :
    (_del_img_key img k).get k' = img.get k' := by
  rw [del_img_key_eq]; exact get_delKey_ne _ _ _ h

theorem mem_keys_del_img (img : Image) (k k' : String) :
    k' ∈ (_del_img_key img k).keys ↔ k' ≠ k ∧ k' ∈ img.keys := by
  rw [del_img_key_eq]; exact mem_keys_delKey _ _ _

/-! ## Small value lemmas -/

theorem collapse_of_none_or_empty (v : PyVal) (h : v = PyVal.none ∨ pyLen v = some 0) :
    _collapse_empty_to_none v = PyVal.none := by
  rcases h with h | h
  · rw [h]; rfl
  · unfold _collapse_empty_to_none
    rw [h]

theorem collapse_of_not_empty (v : PyVal) (h : ¬ pyLen v = some 0) :
    _collapse_empty_to_none v = v := by
  unfold _collapse_empty_to_none
  cases hv : pyLen v with
  | none => rfl
  | some n => cases n with
    | zero => exact absurd hv h
    | succ m => rfl

theorem nvEq_refl (x : NormVal) : nvEq x x = true := by
  cases x <;> simp [nvEq]

/-! ## Characterizations of the predicates in terms of `Image.get` -/

theorem vswe_char (v : PyVal) (img : Image) (k : String) :
    value_synced_with_exif v img k =
      nvEq (toSetIfIter (_collapse_empty_to_none v))
        (toSetIfIter (if isExifKey k = true then img.get k else PyVal.none)) := by
  simp only [value_synced_with_exif, _metadata_value_synced_with_file]
  rw [exif_read_char]

theorem vswi_char (v : PyVal) (img : Image) (k : String) :
    value_synced_with_iptc v img k =
      nvEq (toSetIfIter (_collapse_empty_to_none v))
        (toSetIfIter (if isIptcKey k = true then img.get k else PyVal.none)) := by
  simp only [value_synced_with_iptc, _metadata_value_synced_with_file]
  rw [iptc_read_char]

theorem vswei_char (v : PyVal) (img : Image) (ek ik : String) :
    value_synced_with_exif_and_iptc v img ek ik =
      (let ev := if isExifKey ek = true then img.get ek else PyVal.none
       let iv := if isIptcKey ik = true then img.get ik else PyVal.none
       let cv := _collapse_empty_to_none v
       if ev = PyVal.none then decide (cv = iv)
       else if iv = PyVal.none then decide (cv = ev)
       else decide (cv = ev ∧ cv = iv)) := by
  simp only [value_synced_with_exif_and_iptc]
  rw [exif_read_char, iptc_read_char]

theorem dtsync_char (v : PyVal) (img : Image) (ek dk tk : String) :
    datetime_synced_with_exif_and_iptc v img ek dk tk =
      (let cv := truncDT v
       let ev := if isExifKey ek = true then img.get ek else PyVal.none
       let dv := if isIptcKey dk = true then img.get dk else PyVal.none
       let tv := if isIptcKey tk = true then img.get tk else PyVal.none
       let iv := if pyTruthy dv && pyTruthy tv then pyCombine dv tv else PyVal.none
       if ev = PyVal.none then decide (cv = iv)
       else if iv = PyVal.none then decide (cv = ev)
       else decide (cv = ev ∧ cv = iv)) := by
  simp only [datetime_synced_with_exif_and_iptc]
  rw [exif_read_char, iptc_read_char img dk, iptc_read_char img tk]

theorem read_value_char (img : Image) (ek ik : String) :
    read_value_from_exif_and_iptc img ek ik =
      (let ev := if isExifKey ek = true then img.get ek else PyVal.none
       let iv := if isIptcKey ik = true then img.get ik else PyVal.none
       if ev = PyVal.none then iv else ev) := by
  simp only [read_value_from_exif_and_iptc]
  rw [exif_read_char, iptc_read_char]

theorem read_datetime_char (img : Image) (ek dk tk : String) :
    read_datetime_from_exif_and_iptc img ek dk tk =
      (let ev := if isExifKey ek = true then img.get ek else PyVal.none
       let dv := if isIptcKey dk = true then img.get dk else PyVal.none
       let tv := if isIptcKey tk = true then img.get tk else PyVal.none
       if ev = PyVal.none then
         if pyTruthy dv && pyTruthy tv then pyCombine dv tv else PyVal.none
       else ev) := by
  simp only [read_datetime_from_exif_and_iptc]
  rw [exif_read_char, iptc_read_char img dk, iptc_read_char img tk]

/-! ## Congruence: each predicate reads only its own keys -/

theorem vswe_congr (v : PyVal) (k : String) (i1 i2 : Image)
    (h : i1.get k = i2.get k) :
    value_synced_with_exif v i1 k = value_synced_with_exif v i2 k := by
  rw [vswe_char, vswe_char, h]

theorem vswi_congr (v : PyVal) (k : String) (i1 i2 : Image)
    (h : i1.get k = i2.get k) :
    value_synced_with_iptc v i1 k = value_synced_with_iptc v i2 k := by
  rw [vswi_char, vswi_char, h]

theorem vswei_congr (v : PyVal) (ek ik : String) (i1 i2 : Image)
    (h1 : i1.get ek = i2.get ek) (h2 : i1.get ik = i2.get ik) :
    value_synced_with_exif_and_iptc v i1 ek ik = value_synced_with_exif_and_iptc v i2 ek ik := by
  rw [vswei_char, vswei_char, h1, h2]

theorem dtsync_congr (v : PyVal) (ek dk tk : String) (i1 i2 : Image)
    (h1 : i1.get ek = i2.get ek) (h2 : i1.get dk = i2.get dk) (h3 : i1.get tk = i2.get tk) :
    datetime_synced_with_exif_and_iptc v i1 ek dk tk =
      datetime_synced_with_exif_and_iptc v i2 ek dk tk := by
  rw [dtsync_char, dtsync_char, h1, h2, h3]

/-! ## Frame lemmas: each sync-write touches only its own keys -/

theorem sync_single_frame (v : PyVal) (img : Image) (k : String)
    (chk : PyVal → Image → String → Bool) (k' : String) (h : k' ≠ k) :
    (_sync_metadata_value_to_file v img k chk).2.get k' = img.get k' := by
  simp only [_sync_metadata_value_to_file]
  split
  · split
    · exact get_del_img_ne _ _ _ h
    · exact get_set_ne _ _ _ _ h
  · rfl

theorem sync_dual_frame (v : PyVal) (img : Image) (ek ik k' : String)
    (h1 : k' ≠ ek) (h2 : k' ≠ ik) :
    (sync_value_to_exif_and_iptc v img ek ik).2.get k' = img.get k' := by
  have auxI : ∀ i : Image, i.get k' = img.get k' →
      (if ik ∈ i.iptcKeys then _del_img_key i ik else i).get k' = img.get k' := by
    intro i hi
    split
    · rw [get_del_img_ne _ _ _ h2]; exact hi
    · exact hi
  simp only [sync_value_to_exif_and_iptc]
  split
  · refine auxI _ ?_
    split
    · exact get_del_img_ne _ _ _ h1
    · exact get_set_ne _ _ _ _ h1
  · rfl

theorem sync_dt_frame (v : PyVal) (img : Image) (ek dk tk k' : String)
    (h1 : k' ≠ ek) (h2 : k' ≠ dk) (h3 : k' ≠ tk) :
    (sync_datetime_to_exif_and_iptc v img ek dk tk).2.get k' = img.get k' := by
  have auxD : ∀ i : Image, i.get k' = img.get k' →
      (if dk ∈ i.iptcKeys then _del_img_key i dk else i).get k' = img.get k' := by
    intro i hi
    split
    · rw [get_del_img_ne _ _ _ h2]; exact hi
    · exact hi
  have auxT : ∀ i : Image, i.get k' = img.get k' →
      (if tk ∈ i.iptcKeys then _del_img_key i tk else i).get k' = img.get k' := by
    intro i hi
    split
    · rw [get_del_img_ne _ _ _ h3]; exact hi
    · exact hi
  simp only [sync_datetime_to_exif_and_iptc]
  split
  · refine auxT _ (auxD _ ?_)
    split
    · exact get_set_ne _ _ _ _ h1
    · exact get_del_img_ne _ _ _ h1
  · rfl

/-! ## Branch characterizations of the sync-writes -/

theorem sync_single_run (v : PyVal) (img : Image) (k : String)
    (chk : PyVal → Image → String → Bool) :
    _sync_metadata_value_to_file v img k chk =
      (if chk v img k then (false, img)
       else if v = PyVal.none ∨ pyLen v = some 0 then (true, _del_img_key img k)
       else (true, img.set k v)) := by
  simp only [_sync_metadata_value_to_file]
  cases hx : chk v img k <;> simp [hx]

theorem sync_dual_run (v : PyVal) (img : Image) (ek ik : String) :
    sync_value_to_exif_and_iptc v img ek ik =
      (if value_synced_with_exif_and_iptc v img ek ik then (false, img)
       else
         (true,
          let i1 := if v = PyVal.none ∨ pyLen v = some 0 then _del_img_key img ek
                    else img.set ek v
          if ik ∈ i1.iptcKeys then _del_img_key i1 ik else i1)) := by
  simp only [sync_value_to_exif_and_iptc]
  cases hx : value_synced_with_exif_and_iptc v img ek ik <;> simp [hx]

theorem sync_dt_run (v : PyVal) (img : Image) (ek dk tk : String) :
    sync_datetime_to_exif_and_iptc v img ek dk tk =
      (if datetime_synced_with_exif_and_iptc v img ek dk tk then (false, img)
       else
         (true,
          let i1 := if v ≠ PyVal.none then img.set ek v else _del_img_key img ek
          let i2 := if dk ∈ i1.iptcKeys then _del_img_key i1 dk else i1
          if tk ∈ i2.iptcKeys then _del_img_key i2 tk else i2)) := by
  simp only [sync_datetime_to_exif_and_iptc]
  cases hx : datetime_synced_with_exif_and_iptc v img ek dk tk <;> simp [hx]

/-! ## The conditional IPTC deletion -/

theorem cdel_get_ne (i : Image) (k k' : String) (h : k' ≠ k) :
    (if k ∈ i.iptcKeys then _del_img_key i k else i).get k' = i.get k' := by
  by_cases hm : k ∈ i.iptcKeys
  · rw [if_pos hm]; exact get_del_img_ne _ _ _ h
  · rw [if_neg hm]

theorem cdel_get_self (i : Image) (k : String) (hi : isIptcKey k = true) :
    (if k ∈ i.iptcKeys then _del_img_key i k else i).get k = PyVal.none := by
  by_cases hm : k ∈ i.iptcKeys
  · rw [if_pos hm]; exact get_del_img_self _ _
  · rw [if_neg hm]
    exact get_none_of_not_mem _ _ (fun hk => hm ((mem_iptcKeys _ _).mpr ⟨hi, hk⟩))

theorem cdel_not_mem (i : Image) (k : String) (hi : isIptcKey k = true) :
    k ∉ (if k ∈ i.iptcKeys then _del_img_key i k else i).keys := by
  by_cases hm : k ∈ i.iptcKeys
  · rw [if_pos hm, mem_keys_del_img]
    rintro ⟨h, _⟩
    exact h rfl
  · rw [if_neg hm]
    exact fun hk => hm ((mem_iptcKeys _ _).mpr ⟨hi, hk⟩)

/-! ## After a sync-write, the value is synced -/

theorem sync_single_noop (v : PyVal) (img : Image) (k : String)
    (chk : PyVal → Image → String → Bool) (h : chk v img k = true) :
    _sync_metadata_value_to_file v img k chk = (false, img) := by
  rw [sync_single_run, if_pos h]

theorem sync_dual_noop (v : PyVal) (img : Image) (ek ik : String)
    (h : value_synced_with_exif_and_iptc v img ek ik = true) :
    sync_value_to_exif_and_iptc v img ek ik = (false, img) := by
  rw [sync_dual_run, if_pos h]

theorem sync_dt_noop (v : PyVal) (img : Image) (ek dk tk : String)
    (h : datetime_synced_with_exif_and_iptc v img ek dk tk = true) :
    sync_datetime_to_exif_and_iptc v img ek dk tk = (false, img) := by
  rw [sync_dt_run, if_pos h]

theorem sync_single_post_exif (v : PyVal) (img : Image) (k : String)
    (hk : isExifKey k = true) (hs : storeVal v = v) :
    value_synced_with_exif v (sync_value_to_exif v img k).2 k = true := by
  show value_synced_with_exif v
    (_sync_metadata_value_to_file v img k value_synced_with_exif).2 k = true
  rw [sync_single_run]
  by_cases hc : value_synced_with_exif v img k = true
  · rw [if_pos hc]; exact hc
  · rw [if_neg hc]
    by_cases hd : v = PyVal.none ∨ pyLen v = some 0
    · rw [if_pos hd, vswe_char, collapse_of_none_or_empty _ hd, get_del_img_self, if_pos hk]
      rfl
    · rw [if_neg hd, vswe_char, collapse_of_not_empty _ (fun h => hd (Or.inr h)), if_pos hk,
        get_set_self _ _ _ (fun h => hd (Or.inl h)), hs]
      exact nvEq_refl _

theorem sync_single_post_iptc (v : PyVal) (img : Image) (k : String)
    (hk : isIptcKey k = true) (hs : storeVal v = v) :
    value_synced_with_iptc v (sync_value_to_iptc v img k).2 k = true := by
  show value_synced_with_iptc v
    (_sync_metadata_value_to_file v img k value_synced_with_iptc).2 k = true
  rw [sync_single_run]
  by_cases hc : value_synced_with_iptc v img k = true
  · rw [if_pos hc]; exact hc
  · rw [if_neg hc]
    by_cases hd : v = PyVal.none ∨ pyLen v = some 0
    · rw [if_pos hd, vswi_char, collapse_of_none_or_empty _ hd, get_del_img_self, if_pos hk]
      rfl
    · rw [if_neg hd, vswi_char, collapse_of_not_empty _ (fun h => hd (Or.inr h)), if_pos hk,
        get_set_self _ _ _ (fun h => hd (Or.inl h)), hs]
      exact nvEq_refl _

theorem sync_dual_post (v : PyVal) (img : Image) (ek ik : String)
    (he : isExifKey ek = true) (hi : isIptcKey ik = true) (hne : ek ≠ ik)
    (hs : storeVal v = v) :
    value_synced_with_exif_and_iptc v (sync_value_to_exif_and_iptc v img ek ik).2 ek ik
      = true := by
  rw [sync_dual_run]
  by_cases hc : value_synced_with_exif_and_iptc v img ek ik = true
  · rw [if_pos hc]; exact hc
  · rw [if_neg hc]
    show value_synced_with_exif_and_iptc v
      (let i1 := if v = PyVal.none ∨ pyLen v = some 0 then _del_img_key img ek
                 else img.set ek v
       if ik ∈ i1.iptcKeys then _del_img_key i1 ik else i1) ek ik = true
    by_cases hd : v = PyVal.none ∨ pyLen v = some 0
    · simp only [if_pos hd]
      rw [vswei_char]
      rw [show (if ik ∈ (_del_img_key img ek).iptcKeys then
            _del_img_key (_del_img_key img ek) ik else _del_img_key img ek).get ek
          = PyVal.none from (cdel_get_ne _ _ _ hne).trans (get_del_img_self _ _)]
      rw [cdel_get_self _ _ hi, if_pos he, if_pos hi, collapse_of_none_or_empty _ hd]
      simp
    · simp only [if_neg hd]
      rw [vswei_char]
      have hvn : v ≠ PyVal.none := fun h => hd (Or.inl h)
      rw [show (if ik ∈ (img.set ek v).iptcKeys then
            _del_img_key (img.set ek v) ik else img.set ek v).get ek = v from
          (cdel_get_ne _ _ _ hne).trans ((get_set_self _ _ _ hvn).trans hs)]
      rw [cdel_get_self _ _ hi, if_pos he, if_pos hi,
        collapse_of_not_empty _ (fun h => hd (Or.inr h))]
      simp [hvn]

theorem sync_dt_post (v : PyVal) (img : Image) (ek dk tk : String)
    (he : isExifKey ek = true) (hd : isIptcKey dk = true) (ht : isIptcKey tk = true)
    (hed : ek ≠ dk) (het : ek ≠ tk) (hdt : dk ≠ tk)
    (hv : v = PyVal.none ∨ ∃ d, v = PyVal.dt d) :
    datetime_synced_with_exif_and_iptc v (sync_datetime_to_exif_and_iptc v img ek dk tk).2
      ek dk tk = true := by
  rw [sync_dt_run]
  by_cases hc : datetime_synced_with_exif_and_iptc v img ek dk tk = true
  · rw [if_pos hc]; exact hc
  · rw [if_neg hc]
    show datetime_synced_with_exif_and_iptc v
      (let i1 := if v ≠ PyVal.none then img.set ek v else _del_img_key img ek
       let i2 := if dk ∈ i1.iptcKeys then _del_img_key i1 dk else i1
       if tk ∈ i2.iptcKeys then _del_img_key i2 tk else i2) ek dk tk = true
    have hgek : ∀ i1 : Image,
        (if tk ∈ (if dk ∈ i1.iptcKeys then _del_img_key i1 dk else i1).iptcKeys then
           _del_img_key (if dk ∈ i1.iptcKeys then _del_img_key i1 dk else i1) tk
         else (if dk ∈ i1.iptcKeys then _del_img_key i1 dk else i1)).get ek = i1.get ek :=
      fun i1 => (cdel_get_ne _ _ _ het).trans (cdel_get_ne _ _ _ hed)
    have hgdk : ∀ i1 : Image,
        (if tk ∈ (if dk ∈ i1.iptcKeys then _del_img_key i1 dk else i1).iptcKeys then
           _del_img_key (if dk ∈ i1.iptcKeys then _del_img_key i1 dk else i1) tk
         else (if dk ∈ i1.iptcKeys then _del_img_key i1 dk else i1)).get dk = PyVal.none :=
      fun i1 => (cdel_get_ne _ _ _ hdt).trans (cdel_get_self _ _ hd)
    rcases hv with hv | ⟨d0, hv⟩
    · subst hv
      simp only [ne_eq, not_true_eq_false, if_false, ite_false]
      rw [dtsync_char]
      rw [hgek, get_del_img_self, if_pos he, hgdk]
      simp [pyTruthy, truncDT]
    · subst hv
      have hvn : PyVal.dt d0 ≠ PyVal.none := fun h => by cases h
      simp only [ne_eq, hvn, not_false_eq_true, if_true, ite_true]
      rw [dtsync_char]
      rw [hgek, get_set_self _ _ _ hvn, if_pos he, hgdk]
      simp [pyTruthy, truncDT, storeVal]

/-! ## Generic composition of the per-field sync steps

A `SyncStep` packages one per-field sync-write together with its status
predicate, the keys it touches, and the four facts the idempotence argument
needs: it writes only its own keys, its predicate reads only its own keys,
the predicate holds after it runs, and it is a no-op returning `false` when
the predicate already holds. -/

structure SyncStep where
  run : Image → Bool × Image
  check : Image → Bool
  ks : List String
  frame_ok : ∀ img k, k ∉ ks → (run img).2.get k = img.get k
  check_congr : ∀ i1 i2 : Image, (∀ k ∈ ks, i1.get k = i2.get k) → check i1 = check i2
  check_post : ∀ img, check (run img).2 = true
  run_noop : ∀ img, check img = true → run img = (false, img)

/-- `mod = step() or mod` down a list of steps. -/
def runSteps : List SyncStep → Bool → Image → Bool × Image
  | [], acc, img => (acc, img)
  | s :: rest, acc, img => runSteps rest ((s.run img).1 || acc) (s.run img).2

theorem runSteps_frame (l : List SyncStep) (acc : Bool) (img : Image) (k : String)
    (h : ∀ s ∈ l, k ∉ s.ks) : (runSteps l acc img).2.get k = img.get k := by
  induction l generalizing acc img with
  | nil => rfl
  | cons s rest ih =>
    rw [runSteps]
    rw [ih _ _ (fun t ht => h t (List.mem_cons_of_mem s ht))]
    exact s.frame_ok img k (h s (List.mem_cons_self s rest))

theorem runSteps_noop (l : List SyncStep) (acc : Bool) (img : Image)
    (h : ∀ s ∈ l, s.check img = true) : runSteps l acc img = (acc, img) := by
  induction l generalizing acc with
  | nil => rfl
  | cons s rest ih =>
    rw [runSteps, s.run_noop img (h s (List.mem_cons_self s rest))]
    simpa using ih acc (fun t ht => h t (List.mem_cons_of_mem s ht))

theorem runSteps_post (l : List SyncStep) (acc : Bool) (img : Image)
    (hd : (l.map SyncStep.ks).Pairwise (fun a b => ∀ k ∈ a, k ∉ b)) :
    ∀ s ∈ l, s.check (runSteps l acc img).2 = true := by
  rw [List.pairwise_map] at hd
  induction l generalizing acc img with
  | nil => intro s hs; cases hs
  | cons s0 rest ih =>
    intro s hs
    rw [runSteps]
    rcases List.mem_cons.mp hs with rfl | hs
    · rw [s.check_congr _ _ (fun k hk =>
        runSteps_frame _ _ _ _ (fun t ht => List.rel_of_pairwise_cons hd ht k hk))]
      exact s.check_post img
    · exact ih _ _ (List.Pairwise.of_cons hd) s hs

/-! ## The ten per-field steps of `sync_metadata_to_file` -/

def mkExifStep (v : PyVal) (k : String) (hk : isExifKey k = true)
    (hs : storeVal v = v) : SyncStep where
  run := fun img => sync_value_to_exif v img k
  check := fun img => value_synced_with_exif v img k
  ks := [k]
  frame_ok := fun img k' h => sync_single_frame v img k _ k' (by simpa using h)
  check_congr := fun i1 i2 h => vswe_congr v k i1 i2 (h k (by simp))
  check_post := fun img => sync_single_post_exif v img k hk hs
  run_noop := fun img h => sync_single_noop v img k _ h

def mkIptcStep (v : PyVal) (k : String) (hk : isIptcKey k = true)
    (hs : storeVal v = v) : SyncStep where
  run := fun img => sync_value_to_iptc v img k
  check := fun img => value_synced_with_iptc v img k
  ks := [k]
  frame_ok := fun img k' h => sync_single_frame v img k _ k' (by simpa using h)
  check_congr := fun i1 i2 h => vswi_congr v k i1 i2 (h k (by simp))
  check_post := fun img => sync_single_post_iptc v img k hk hs
  run_noop := fun img h => sync_single_noop v img k _ h

def mkDualStep (v : PyVal) (ek ik : String) (he : isExifKey ek = true)
    (hi : isIptcKey ik = true) (hne : ek ≠ ik) (hs : storeVal v = v) : SyncStep where
  run := fun img => sync_value_to_exif_and_iptc v img ek ik
  check := fun img => value_synced_with_exif_and_iptc v img ek ik
  ks := [ek, ik]
  frame_ok := fun img k' h =>
    sync_dual_frame v img ek ik k' (by simp at h; exact h.1) (by simp at h; exact h.2)
  check_congr := fun i1 i2 h => vswei_congr v ek ik i1 i2 (h ek (by simp)) (h ik (by simp))
  check_post := fun img => sync_dual_post v img ek ik he hi hne hs
  run_noop := fun img h => sync_dual_noop v img ek ik h

def mkDTStep (v : PyVal) (ek dk tk : String) (he : isExifKey ek = true)
    (hd : isIptcKey dk = true) (ht : isIptcKey tk = true)
    (hed : ek ≠ dk) (het : ek ≠ tk) (hdt : dk ≠ tk)
    (hv : v = PyVal.none ∨ ∃ d, v = PyVal.dt d) : SyncStep where
  run := fun img => sync_datetime_to_exif_and_iptc v img ek dk tk
  check := fun img => datetime_synced_with_exif_and_iptc v img ek dk tk
  ks := [ek, dk, tk]
  frame_ok := fun img k' h =>
    sync_dt_frame v img ek dk tk k' (by simp at h; exact h.1) (by simp at h; exact h.2.1)
      (by simp at h; exact h.2.2)
  check_congr := fun i1 i2 h =>
    dtsync_congr v ek dk tk i1 i2 (h ek (by simp)) (h dk (by simp)) (h tk (by simp))
  check_post := fun img => sync_dt_post v img ek dk tk he hd ht hed het hdt hv
  run_noop := fun img h => sync_dt_noop v img ek dk tk h

theorem widthKey_isExif (b : Bool) : isExifKey (get_image_width_key b) = true := by
  cases b <;> decide

theorem heightKey_isExif (b : Bool) : isExifKey (get_image_height_key b) = true := by
  cases b <;> decide

theorem optDT_shape (o : Option PDateTime) :
    optDT o = PyVal.none ∨ ∃ d, optDT o = PyVal.dt d := by
  cases o with
  | none => exact Or.inl rfl
  | some d => exact Or.inr ⟨d, rfl⟩

/-- The step list executed by `to_file_core`, in source order. -/
def photoSteps (p : Photo) : List SyncStep :=
  [ mkDualStep (.text p.description) descExifKey descIptcKey (by decide) (by decide)
      (by decide) rfl,
    mkDualStep (.text p.artist) artistExifKey artistIptcKey (by decide) (by decide)
      (by decide) rfl,
    mkIptcStep (.text p.country) countryIptcKey (by decide) rfl,
    mkIptcStep (.text p.province_state) provinceIptcKey (by decide) rfl,
    mkIptcStep (.text p.city) cityIptcKey (by decide) rfl,
    mkIptcStep (.text p.location) locationIptcKey (by decide) rfl,
    mkDTStep (optDT p.time_created) dtExifKey dtDateIptcKey dtTimeIptcKey (by decide)
      (by decide) (by decide) (by decide) (by decide) (by decide) (optDT_shape _),
    mkIptcStep (.list p.keywords) kwIptcKey (by decide) rfl,
    mkExifStep (.int p.image_width) (get_image_width_key p.is_jpeg)
      (widthKey_isExif p.is_jpeg) rfl,
    mkExifStep (.int p.image_height) (get_image_height_key p.is_jpeg)
      (heightKey_isExif p.is_jpeg) rfl ]

theorem to_file_core_eq_runSteps (p : Photo) (img : Image) :
    to_file_core p img = runSteps (photoSteps p) false img := rfl

theorem photoSteps_pairwise (p : Photo) :
    ((photoSteps p).map SyncStep.ks).Pairwise (fun a b => ∀ k ∈ a, k ∉ b) := by
  cases hj : p.is_jpeg <;>
    · simp only [photoSteps, hj, List.map_cons, List.map_nil,
        mkDualStep, mkIptcStep, mkExifStep, mkDTStep]
      decide

theorem to_file_core_idem (p : Photo) (img : Image) :
    to_file_core p (to_file_core p img).2 = (false, (to_file_core p img).2) := by
  rw [to_file_core_eq_runSteps p ((to_file_core p img).2), to_file_core_eq_runSteps p img]
  exact runSteps_noop _ _ _
    (fun s hs => runSteps_post _ _ _ (photoSteps_pairwise p) s hs)

/-! ## Claim theorems -/

/-- C1: when `metadata_sync_enabled` is false both record synchronizers
return `false` at once, leaving record and world untouched; an I/O error
on open/parse makes either synchronizer disable sync, persist the record
and return `false`; and in `sync_metadata_to_file`, when a per-field
mutation occurred and the flush raises an I/O error, the function likewise
disables sync, persists the record and returns `false`. -/
theorem circuit_breaker_behavior (p : Photo) (w : World) (img : Image) (c : Bool) :
    (p.metadata_sync_enabled = false →
      sync_metadata_to_file p w = (false, p, w) ∧
      sync_metadata_from_file p w c = (false, p, w)) ∧
    (p.metadata_sync_enabled = true → w.file = ReadResult.ioError →
      sync_metadata_to_file p w = (false, { p with metadata_sync_enabled := false }, w) ∧
      sync_metadata_from_file p w c = (false, { p with metadata_sync_enabled := false }, w)) ∧
    (p.metadata_sync_enabled = true → w.file = ReadResult.ok img →
      (to_file_core p img).1 = true → w.flushOk = false →
      sync_metadata_to_file p w = (false, { p with metadata_sync_enabled := false }, w)) := by
  refine ⟨fun he => ⟨?_, ?_⟩, fun he hf => ⟨?_, ?_⟩, fun he hf hm hfl => ?_⟩
  · rw [sync_metadata_to_file, if_pos he]
  · rw [sync_metadata_from_file, if_pos he]
  · simp [sync_metadata_to_file, he, hf]
  · simp [sync_metadata_from_file, he, hf]
  · simp [sync_metadata_to_file, he, hf, hm, hfl]

def pDisabled : Photo := ⟨"a", "", "", "", "", "", Option.none, [], 1, 1, true, false⟩
def pEnabled : Photo := ⟨"a", "", "", "", "", "", Option.none, [], 1, 1, true, true⟩
def wBroken : World := ⟨ReadResult.ioError, true, []⟩
def wNoFlush : World := ⟨ReadResult.ok ⟨[], []⟩, false, []⟩
def wGood : World := ⟨ReadResult.ok ⟨[], []⟩, true, []⟩

theorem circuit_breaker_behavior_witness :
    (sync_metadata_to_file pDisabled wGood = (false, pDisabled, wGood) ∧
      sync_metadata_from_file pDisabled wGood true = (false, pDisabled, wGood)) ∧
    (sync_metadata_to_file pEnabled wBroken =
        (false, { pEnabled with metadata_sync_enabled := false }, wBroken) ∧
      sync_metadata_from_file pEnabled wBroken true =
        (false, { pEnabled with metadata_sync_enabled := false }, wBroken)) ∧
    sync_metadata_to_file pEnabled wNoFlush =
      (false, { pEnabled with metadata_sync_enabled := false }, wNoFlush) :=
  ⟨(circuit_breaker_behavior pDisabled wGood ⟨[], []⟩ true).1 rfl,
   ((circuit_breaker_behavior pEnabled wBroken ⟨[], []⟩ true).2.1 rfl rfl),
   ((circuit_breaker_behavior pEnabled wNoFlush ⟨[], []⟩ true).2.2 rfl rfl
     (by decide) rfl)⟩

/-- C7: if `sync_metadata_to_file` returns `true`, an immediately repeated
call with no intervening field changes returns `false` and leaves the
record and the file untouched (every field compares as synced, nothing is
written or flushed). -/
theorem sync_to_file_idempotent (p : Photo) (w : World)
    (h : (sync_metadata_to_file p w).1 = true) :
    sync_metadata_to_file (sync_metadata_to_file p w).2.1 (sync_metadata_to_file p w).2.2 =
      (false, (sync_metadata_to_file p w).2.1, (sync_metadata_to_file p w).2.2) := by
  by_cases he : p.metadata_sync_enabled = false
  · have hc : sync_metadata_to_file p w = (false, p, w) := by
      rw [sync_metadata_to_file, if_pos he]
    rw [hc] at h
    exact absurd h (by simp)
  · cases hf : w.file with
    | ioError =>
      have hc : sync_metadata_to_file p w =
          (false, { p with metadata_sync_enabled := false }, w) := by
        simp [sync_metadata_to_file, he, hf]
      rw [hc] at h
      exact absurd h (by simp)
    | ok img =>
      cases hm : (to_file_core p img).1 with
      | false =>
        have hc : sync_metadata_to_file p w = (false, p, w) := by
          simp [sync_metadata_to_file, he, hf, hm]
        rw [hc] at h
        exact absurd h (by simp)
      | true =>
        cases hfl : w.flushOk with
        | false =>
          have hc : sync_metadata_to_file p w =
              (false, { p with metadata_sync_enabled := false }, w) := by
            simp [sync_metadata_to_file, he, hf, hm, hfl]
          rw [hc] at h
          exact absurd h (by simp)
        | true =>
          have hc : sync_metadata_to_file p w =
              (true, p, { w with file := ReadResult.ok (to_file_core p img).2 }) := by
            simp [sync_metadata_to_file, he, hf, hm, hfl]
          rw [hc]
          simp [sync_metadata_to_file, he, to_file_core_idem p img]

def pC7 : Photo := ⟨"x", "", "", "", "", "", Option.none, [], 1, 1, true, true⟩

theorem sync_to_file_idempotent_witness :
    (sync_metadata_to_file pC7 wGood).1 = true ∧
    sync_metadata_to_file (sync_metadata_to_file pC7 wGood).2.1
        (sync_metadata_to_file pC7 wGood).2.2 =
      (false, (sync_metadata_to_file pC7 wGood).2.1, (sync_metadata_to_file pC7 wGood).2.2) :=
  ⟨by decide, sync_to_file_idempotent pC7 wGood (by decide)⟩

theorem lk_some_of_mem (l : List (String × PyVal)) (k : String)
    (h : k ∈ l.map Prod.fst) : ∃ b, l.lookup k = some b := by
  induction l with
  | nil => cases h
  | cons kv rest ih =>
    obtain ⟨a, b⟩ := kv
    by_cases hk : k = a
    · cases hk; exact ⟨b, lookup_cons_self _ _ _⟩
    · rw [lookup_cons_ne k a b _ hk]
      refine ih ?_
      simp only [List.map_cons, List.mem_cons] at h
      exact h.resolve_left hk

theorem mem_of_lk_some (l : List (String × PyVal)) (k : String) (b : PyVal)
    (h : l.lookup k = some b) : (k, b) ∈ l := by
  induction l with
  | nil => cases h
  | cons kv rest ih =>
    obtain ⟨a, c⟩ := kv
    by_cases hk : k = a
    · cases hk
      rw [lookup_cons_self] at h
      cases h
      exact List.mem_cons_self _ _
    · rw [lookup_cons_ne k a c _ hk] at h
      exact List.mem_cons_of_mem _ (ih h)

theorem get_ne_none_of_wf (img : Image) (k : String) (hwf : img.WF)
    (hm : k ∈ img.keys) : img.get k ≠ PyVal.none := by
  obtain ⟨b, hb⟩ := lk_some_of_mem img.tags k hm
  have hbne := hwf (k, b) (mem_of_lk_some _ _ _ hb)
  simpa [Image.get, hb] using hbne

theorem nvEq_none_scalar (w : PyVal) (h : w ≠ PyVal.none) :
    nvEq (NormVal.scalar PyVal.none) (toSetIfIter w) = false := by
  cases w <;> simp_all [toSetIfIter, nvEq]

/-- C2: when both the Exif and the IPTC key hold a value, the merged read
returns the Exif value; and writing a non-empty, not-yet-synced value with
`sync_value_to_exif_and_iptc` returns `true`, leaves the Exif key holding
the value and the IPTC key absent. -/
theorem exif_precedence (v : PyVal) (img : Image) (ek ik : String)
    (he : isExifKey ek = true) (hi : isIptcKey ik = true) (hne : ek ≠ ik)
    (hs : storeVal v = v) :
    (ek ∈ img.exifKeys → img.get ek ≠ PyVal.none → ik ∈ img.iptcKeys →
      read_value_from_exif_and_iptc img ek ik = img.get ek) ∧
    (value_synced_with_exif_and_iptc v img ek ik = false →
      v ≠ PyVal.none → ¬ pyLen v = some 0 →
      (sync_value_to_exif_and_iptc v img ek ik).1 = true ∧
      (sync_value_to_exif_and_iptc v img ek ik).2.get ek = v ∧
      ik ∉ (sync_value_to_exif_and_iptc v img ek ik).2.keys) := by
  constructor
  · intro _ hv _
    rw [read_value_char]
    simp [he, hv]
  · intro hns hv hl
    have hd : ¬ (v = PyVal.none ∨ pyLen v = some 0) := by
      rintro (h | h)
      · exact hv h
      · exact hl h
    have hrun : sync_value_to_exif_and_iptc v img ek ik =
        (true,
         if ik ∈ (img.set ek v).iptcKeys then _del_img_key (img.set ek v) ik
         else img.set ek v) := by
      rw [sync_dual_run, hns]
      simp [hd]
    rw [hrun]
    refine ⟨rfl, ?_, ?_⟩
    · exact (cdel_get_ne _ _ _ hne).trans ((get_set_self _ _ _ hv).trans hs)
    · exact cdel_not_mem _ _ hi

def imgExifIptcAB : Image :=
  ⟨[("Exif.Image.ImageDescription", PyVal.text "A"),
    ("Iptc.Application2.Caption", PyVal.text "B")], []⟩

theorem exif_precedence_witness :
    read_value_from_exif_and_iptc imgExifIptcAB descExifKey descIptcKey =
      imgExifIptcAB.get descExifKey ∧
    (sync_value_to_exif_and_iptc (PyVal.text "C") imgExifIptcAB descExifKey descIptcKey).1
      = true ∧
    (sync_value_to_exif_and_iptc (PyVal.text "C") imgExifIptcAB descExifKey
      descIptcKey).2.get descExifKey = PyVal.text "C" ∧
    descIptcKey ∉
      (sync_value_to_exif_and_iptc (PyVal.text "C") imgExifIptcAB descExifKey
        descIptcKey).2.keys :=
  ⟨(exif_precedence (PyVal.text "C") imgExifIptcAB descExifKey descIptcKey
      (by decide) (by decide) (by decide) rfl).1 (by decide) (by decide) (by decide),
   (exif_precedence (PyVal.text "C") imgExifIptcAB descExifKey descIptcKey
      (by decide) (by decide) (by decide) rfl).2 (by decide) (by decide) (by decide)⟩

/-- C4: syncing a value that collapses to Absent through a single-namespace
sync-write returns `false` and leaves the container untouched when the key
is absent, and returns `true` deleting exactly that key when it is present;
the tolerant delete removes the key whether it is missing or its deletion
raises the spurious pyexiv2 type error, surfacing nothing. -/
theorem absent_value_sync (v : PyVal) (img : Image) (k : String)
    (hv : v = PyVal.none ∨ pyLen v = some 0) (hwf : img.WF) :
    (isExifKey k = true →
      (k ∉ img.keys → sync_value_to_exif v img k = (false, img)) ∧
      (k ∈ img.keys → sync_value_to_exif v img k = (true, img.delKey k))) ∧
    (isIptcKey k = true →
      (k ∉ img.keys → sync_value_to_iptc v img k = (false, img)) ∧
      (k ∈ img.keys → sync_value_to_iptc v img k = (true, img.delKey k))) ∧
    _del_img_key img k = img.delKey k ∧
    (k ∉ img.keys → img.delKey k = img) := by
  have habs : ∀ hk : isExifKey k = true, k ∉ img.keys →
      value_synced_with_exif v img k = true := by
    intro hk hm
    rw [vswe_char, collapse_of_none_or_empty _ hv, get_none_of_not_mem _ _ hm]
    simp [toSetIfIter, nvEq]
  have hpres : ∀ hk : isExifKey k = true, k ∈ img.keys →
      value_synced_with_exif v img k = false := by
    intro hk hm
    rw [vswe_char, collapse_of_none_or_empty _ hv, if_pos hk]
    exact nvEq_none_scalar _ (get_ne_none_of_wf img k hwf hm)
  have habsI : ∀ hk : isIptcKey k = true, k ∉ img.keys →
      value_synced_with_iptc v img k = true := by
    intro hk hm
    rw [vswi_char, collapse_of_none_or_empty _ hv, get_none_of_not_mem _ _ hm]
    simp [toSetIfIter, nvEq]
  have hpresI : ∀ hk : isIptcKey k = true, k ∈ img.keys →
      value_synced_with_iptc v img k = false := by
    intro hk hm
    rw [vswi_char, collapse_of_none_or_empty _ hv, if_pos hk]
    exact nvEq_none_scalar _ (get_ne_none_of_wf img k hwf hm)
  refine ⟨fun hk => ⟨fun hm => ?_, fun hm => ?_⟩,
          fun hk => ⟨fun hm => ?_, fun hm => ?_⟩, del_img_key_eq img k, fun hm => ?_⟩
  · show _sync_metadata_value_to_file v img k value_synced_with_exif = (false, img)
    rw [sync_single_run, if_pos (habs hk hm)]
  · show _sync_metadata_value_to_file v img k value_synced_with_exif = (true, img.delKey k)
    rw [sync_single_run, hpres hk hm]
    simp [hv, del_img_key_eq]
  · show _sync_metadata_value_to_file v img k value_synced_with_iptc = (false, img)
    rw [sync_single_run, if_pos (habsI hk hm)]
  · show _sync_metadata_value_to_file v img k value_synced_with_iptc = (true, img.delKey k)
    rw [sync_single_run, hpresI hk hm]
    simp [hv, del_img_key_eq]
  · cases img with
    | mk tags quirks =>
      simp only [Image.delKey]
      rw [filter_eq_self_of_not_mem _ _ hm]

def imgOneDesc : Image := ⟨[("Exif.Image.ImageDescription", PyVal.text "x")], []⟩
def imgQuirkDate : Image :=
  ⟨[("Iptc.Application2.DateCreated", PyVal.date ⟨2007, 9, 28⟩)],
   ["Iptc.Application2.DateCreated"]⟩

theorem absent_value_sync_witness :
    sync_value_to_exif (PyVal.text "") imgOneDesc descExifKey =
      (true, imgOneDesc.delKey descExifKey) ∧
    sync_value_to_exif (PyVal.text "") (Image.mk [] []) descExifKey =
      (false, Image.mk [] []) ∧
    _del_img_key imgQuirkDate dtDateIptcKey = imgQuirkDate.delKey dtDateIptcKey ∧
    _del_img_key (Image.mk [] []) dtDateIptcKey = (Image.mk [] []).delKey dtDateIptcKey :=
  ⟨((absent_value_sync (PyVal.text "") imgOneDesc descExifKey (Or.inr (by decide))
      (show ∀ kv ∈ imgOneDesc.tags, kv.2 ≠ PyVal.none by decide)).1 (by decide)).2
      (by decide),
   ((absent_value_sync (PyVal.text "") (Image.mk [] []) descExifKey (Or.inr (by decide))
      (show ∀ kv ∈ ([] : List (String × PyVal)), kv.2 ≠ PyVal.none by decide)).1
      (by decide)).1 (by decide),
   (absent_value_sync PyVal.none imgQuirkDate dtDateIptcKey (Or.inl rfl)
      (show ∀ kv ∈ imgQuirkDate.tags, kv.2 ≠ PyVal.none by decide)).2.2.1,
   (absent_value_sync PyVal.none (Image.mk [] []) dtDateIptcKey (Or.inl rfl)
      (show ∀ kv ∈ ([] : List (String × PyVal)), kv.2 ≠ PyVal.none by decide)).2.2.1⟩

/-- C5: with no Exif datetime tag, IPTC date 2007-09-28 plus IPTC time
03:00:00 merge to the combined datetime 2007-09-28 03:00:00; a lone IPTC
date (no time tag), or a lone time (no date tag), reads as `None`; and a
present Exif datetime value is returned in preference to the IPTC pair. -/
theorem datetime_merged_read (img : Image) (ek dk tk : String) :
    (ek ∉ img.exifKeys → dk ∈ img.iptcKeys →
      img.get dk = PyVal.date ⟨2007, 9, 28⟩ → tk ∈ img.iptcKeys →
      img.get tk = PyVal.time ⟨3, 0, 0⟩ →
      read_datetime_from_exif_and_iptc img ek dk tk =
        PyVal.dt ⟨⟨2007, 9, 28⟩, ⟨3, 0, 0⟩, 0⟩) ∧
    (ek ∉ img.exifKeys → tk ∉ img.iptcKeys →
      read_datetime_from_exif_and_iptc img ek dk tk = PyVal.none) ∧
    (ek ∉ img.exifKeys → dk ∉ img.iptcKeys →
      read_datetime_from_exif_and_iptc img ek dk tk = PyVal.none) ∧
    (ek ∈ img.exifKeys → img.get ek ≠ PyVal.none →
      read_datetime_from_exif_and_iptc img ek dk tk = img.get ek) := by
  refine ⟨fun hek hdk hdv htk htv => ?_, fun hek htk => ?_, fun hek hdk => ?_,
    fun hek hev => ?_⟩
  · simp only [read_datetime_from_exif_and_iptc, if_neg hek, if_pos hdk, if_pos htk,
      hdv, htv]
    simp [pyTruthy, pyCombine]
  · simp only [read_datetime_from_exif_and_iptc, if_neg hek, if_neg htk]
    simp [pyTruthy]
  · simp only [read_datetime_from_exif_and_iptc, if_neg hek, if_neg hdk]
    simp [pyTruthy]
  · simp only [read_datetime_from_exif_and_iptc, if_pos hek]
    simp [hev]

def imgIptcPair : Image :=
  ⟨[("Iptc.Application2.DateCreated", PyVal.date ⟨2007, 9, 28⟩),
    ("Iptc.Application2.TimeCreated", PyVal.time ⟨3, 0, 0⟩)], []⟩
def imgIptcDateOnly : Image :=
  ⟨[("Iptc.Application2.DateCreated", PyVal.date ⟨2007, 9, 28⟩)], []⟩
def imgIptcTimeOnly : Image :=
  ⟨[("Iptc.Application2.TimeCreated", PyVal.time ⟨3, 0, 0⟩)], []⟩
def imgExifDT : Image :=
  ⟨[("Exif.Photo.DateTimeOriginal", PyVal.dt ⟨⟨2007, 9, 28⟩, ⟨3, 0, 0⟩, 0⟩),
    ("Iptc.Application2.DateCreated", PyVal.date ⟨2007, 10, 10⟩),
    ("Iptc.Application2.TimeCreated", PyVal.time ⟨5, 0, 0⟩)], []⟩

theorem datetime_merged_read_witness :
    read_datetime_from_exif_and_iptc imgIptcPair dtExifKey dtDateIptcKey dtTimeIptcKey =
      PyVal.dt ⟨⟨2007, 9, 28⟩, ⟨3, 0, 0⟩, 0⟩ ∧
    read_datetime_from_exif_and_iptc imgIptcDateOnly dtExifKey dtDateIptcKey dtTimeIptcKey =
      PyVal.none ∧
    read_datetime_from_exif_and_iptc imgIptcTimeOnly dtExifKey dtDateIptcKey dtTimeIptcKey =
      PyVal.none ∧
    read_datetime_from_exif_and_iptc imgExifDT dtExifKey dtDateIptcKey dtTimeIptcKey =
      imgExifDT.get dtExifKey :=
  ⟨(datetime_merged_read imgIptcPair dtExifKey dtDateIptcKey dtTimeIptcKey).1
      (by decide) (by decide) (by decide) (by decide) (by decide),
   (datetime_merged_read imgIptcDateOnly dtExifKey dtDateIptcKey dtTimeIptcKey).2.1
      (by decide) (by decide),
   (datetime_merged_read imgIptcTimeOnly dtExifKey dtDateIptcKey dtTimeIptcKey).2.2.1
      (by decide) (by decide),
   (datetime_merged_read imgExifDT dtExifKey dtDateIptcKey dtTimeIptcKey).2.2.2
      (by decide) (by decide)⟩

/-- C10: a stored IPTC time of exactly midnight is falsy (a Python 2
quirk), so alongside a present IPTC date and no Exif datetime tag the IPTC
pair contributes nothing: a `None` caller value is reported as synced, the
stored date is never compared, and the merged datetime read returns
`None`. -/
theorem iptc_midnight_pair_ignored (img : Image) (ek dk tk : String) (d : PDate)
    (hek : ek ∉ img.exifKeys) (hdk : dk ∈ img.iptcKeys)
    (hdv : img.get dk = PyVal.date d)
    (htk : tk ∈ img.iptcKeys) (htv : img.get tk = PyVal.time ⟨0, 0, 0⟩) :
    datetime_synced_with_exif_and_iptc PyVal.none img ek dk tk = true ∧
    read_datetime_from_exif_and_iptc img ek dk tk = PyVal.none := by
  constructor
  · simp only [datetime_synced_with_exif_and_iptc, if_neg hek, if_pos hdk, if_pos htk,
      hdv, htv]
    simp [pyTruthy, truncDT]
  · simp only [read_datetime_from_exif_and_iptc, if_neg hek, if_pos hdk, if_pos htk,
      hdv, htv]
    simp [pyTruthy]

def imgMidnight : Image :=
  ⟨[("Iptc.Application2.DateCreated", PyVal.date ⟨2007, 9, 28⟩),
    ("Iptc.Application2.TimeCreated", PyVal.time ⟨0, 0, 0⟩)], []⟩

theorem iptc_midnight_pair_ignored_witness :
    datetime_synced_with_exif_and_iptc PyVal.none imgMidnight dtExifKey dtDateIptcKey
      dtTimeIptcKey = true ∧
    read_datetime_from_exif_and_iptc imgMidnight dtExifKey dtDateIptcKey dtTimeIptcKey =
      PyVal.none :=
  iptc_midnight_pair_ignored imgMidnight dtExifKey dtDateIptcKey dtTimeIptcKey
    ⟨2007, 9, 28⟩ (by decide) (by decide) (by decide) (by decide) (by decide)

theorem pyLen_list_ne (l : List String) (h : l ≠ []) :
    ¬ pyLen (PyVal.list l) = some 0 := by
  simp only [pyLen, Option.some.injEq]
  intro hc
  exact h (List.length_eq_zero.mp hc)

theorem nvEq_strset_left_congr (l1 l2 : List String) (x : NormVal)
    (h : ∀ a, a ∈ l1 ↔ a ∈ l2) :
    nvEq (NormVal.strset l1) x = nvEq (NormVal.strset l2) x := by
  cases x with
  | scalar v => rfl
  | strset m =>
    simp only [nvEq]
    have e1 : (∀ a ∈ l1, a ∈ m) ↔ (∀ a ∈ l2, a ∈ m) :=
      ⟨fun hh a ha => hh a ((h a).mpr ha), fun hh a ha => hh a ((h a).mp ha)⟩
    have e2 : (∀ a ∈ m, a ∈ l1) ↔ (∀ a ∈ m, a ∈ l2) :=
      ⟨fun hh a ha => (h a).mp (hh a ha), fun hh a ha => (h a).mpr (hh a ha)⟩
    rw [decide_eq_decide.mpr e1, decide_eq_decide.mpr e2]

theorem nvEq_strset_right_congr (l1 l2 : List String) (x : NormVal)
    (h : ∀ a, a ∈ l1 ↔ a ∈ l2) :
    nvEq x (NormVal.strset l1) = nvEq x (NormVal.strset l2) := by
  cases x with
  | scalar v => rfl
  | strset m =>
    simp only [nvEq]
    have e1 : (∀ a ∈ m, a ∈ l1) ↔ (∀ a ∈ m, a ∈ l2) :=
      ⟨fun hh a ha => (h a).mp (hh a ha), fun hh a ha => (h a).mpr (hh a ha)⟩
    have e2 : (∀ a ∈ l1, a ∈ m) ↔ (∀ a ∈ l2, a ∈ m) :=
      ⟨fun hh a ha => hh a ((h a).mpr ha), fun hh a ha => hh a ((h a).mp ha)⟩
    rw [decide_eq_decide.mpr e1, decide_eq_decide.mpr e2]

/-- C8: `value_synced_with_iptc` gives the same answer for any permutation
of the caller's keyword list, and against a stored keyword tag holding the
same elements in any order both of two permuted caller lists are synced. -/
theorem keyword_order_insensitive (img : Image) (k : String)
    (l1 l2 stored : List String) (hperm : l1.Perm l2) :
    value_synced_with_iptc (PyVal.list l1) img k =
      value_synced_with_iptc (PyVal.list l2) img k ∧
    (k ∈ img.iptcKeys → img.get k = PyVal.tuple stored →
      (∀ a, a ∈ stored ↔ a ∈ l1) → l1 ≠ [] →
      value_synced_with_iptc (PyVal.list l1) img k = true ∧
      value_synced_with_iptc (PyVal.list l2) img k = true) := by
  have hmem : ∀ a, a ∈ l1 ↔ a ∈ l2 := fun a => hperm.mem_iff
  have h1 : value_synced_with_iptc (PyVal.list l1) img k =
      value_synced_with_iptc (PyVal.list l2) img k := by
    rw [vswi_char, vswi_char]
    by_cases hz : l1 = []
    · have hz2 : l2 = [] := by
        subst hz
        exact List.perm_nil.mp hperm.symm
      rw [hz, hz2]
    · have hz2 : l2 ≠ [] := fun h => hz (List.perm_nil.mp (h ▸ hperm))
      rw [collapse_of_not_empty _ (pyLen_list_ne _ hz),
        collapse_of_not_empty _ (pyLen_list_ne _ hz2)]
      exact nvEq_strset_left_congr _ _ _ hmem
  refine ⟨h1, fun hk hv hst hz => ?_⟩
  have h2 : value_synced_with_iptc (PyVal.list l1) img k = true := by
    rw [vswi_char, collapse_of_not_empty _ (pyLen_list_ne _ hz),
      if_pos ((mem_iptcKeys img k).mp hk).1, hv]
    simp only [toSetIfIter, nvEq, Bool.and_eq_true, decide_eq_true_eq]
    exact ⟨fun a ha => (hst a).mpr ha, fun a ha => (hst a).mp ha⟩
  exact ⟨h2, h1 ▸ h2⟩

def imgKeywords : Image :=
  ⟨[("Iptc.Application2.Keywords", PyVal.tuple ["b", "a", "c"])], []⟩

theorem keyword_order_insensitive_witness :
    value_synced_with_iptc (PyVal.list ["a", "b", "c"]) imgKeywords kwIptcKey = true ∧
    value_synced_with_iptc (PyVal.list ["c", "b", "a"]) imgKeywords kwIptcKey = true :=
  (keyword_order_insensitive imgKeywords kwIptcKey ["a", "b", "c"] ["c", "b", "a"]
      ["b", "a", "c"] (by decide)).2
    (by decide) (by decide) (fun a => List.Perm.mem_iff (by decide)) (by decide)

def imgStoredSeq : Image :=
  ⟨[("Exif.Image.ImageDescription", PyVal.tuple ["a", "b"])], []⟩
def imgStoredEmptyText : Image :=
  ⟨[("Exif.Image.ImageDescription", PyVal.text "")], []⟩

/-- C3 counterexample: `value_synced_with_exif_and_iptc` compares raw
values with no set conversion, so the same elements in a different order
compare as out of sync; and a zero-length stored value is not collapsed to
Absent, so an empty stored string compares as out of sync with a `None`
caller value — both contradict the claim that every sync-status predicate
normalizes both sides. -/
theorem normalization_counterexample :
    value_synced_with_exif_and_iptc (PyVal.list ["b", "a"]) imgStoredSeq
      descExifKey descIptcKey = false ∧
    value_synced_with_exif_and_iptc PyVal.none imgStoredEmptyText
      descExifKey descIptcKey = false := by decide

/-- C3 amended: the single-namespace predicates (`value_synced_with_exif`,
`value_synced_with_iptc`) convert multi-element sequences to unordered sets
on both the caller and the stored side and collapse a zero-length caller
value to Absent; `value_synced_with_exif_and_iptc` applies only the
caller-side collapse and compares raw values — stored sequences compare
order-sensitively (a caller list never equals a stored tuple) and a
zero-length stored value is not collapsed. -/
theorem normalization_amended (img : Image) (k ek ik : String) (v : PyVal)
    (l1 l2 s1 : List String) :
    (l1.Perm l2 →
      value_synced_with_exif (PyVal.list l1) img k =
        value_synced_with_exif (PyVal.list l2) img k ∧
      value_synced_with_iptc (PyVal.list l1) img k =
        value_synced_with_iptc (PyVal.list l2) img k) ∧
    (value_synced_with_exif (PyVal.text "") img k =
        value_synced_with_exif PyVal.none img k ∧
      value_synced_with_iptc (PyVal.list []) img k =
        value_synced_with_iptc PyVal.none img k) ∧
    (∀ st1 st2 : List String, st1.Perm st2 → isIptcKey k = true →
      value_synced_with_iptc v (img.set k (PyVal.tuple st1)) k =
        value_synced_with_iptc v (img.set k (PyVal.tuple st2)) k) ∧
    (isExifKey ek = true → img.get ek = PyVal.tuple s1 → ik ∉ img.iptcKeys → l2 ≠ [] →
      value_synced_with_exif_and_iptc (PyVal.list l2) img ek ik = false) ∧
    (isExifKey ek = true → img.get ek = PyVal.text "" → ik ∉ img.iptcKeys →
      value_synced_with_exif_and_iptc PyVal.none img ek ik = false) := by
  refine ⟨fun hperm => ⟨?_, ?_⟩, ⟨?_, ?_⟩, fun st1 st2 hperm hk => ?_,
    fun he hv hik hl2 => ?_, fun he hv hik => ?_⟩
  · rw [vswe_char, vswe_char]
    by_cases hz : l1 = []
    · rw [hz, List.perm_nil.mp (hz ▸ hperm : ([] : List String).Perm l2).symm]
    · rw [collapse_of_not_empty _ (pyLen_list_ne _ hz),
        collapse_of_not_empty _
          (pyLen_list_ne _ (fun h => hz (List.perm_nil.mp (h ▸ hperm))))]
      exact nvEq_strset_left_congr _ _ _ (fun a => hperm.mem_iff)
  · rw [vswi_char, vswi_char]
    by_cases hz : l1 = []
    · rw [hz, List.perm_nil.mp (hz ▸ hperm : ([] : List String).Perm l2).symm]
    · rw [collapse_of_not_empty _ (pyLen_list_ne _ hz),
        collapse_of_not_empty _
          (pyLen_list_ne _ (fun h => hz (List.perm_nil.mp (h ▸ hperm))))]
      exact nvEq_strset_left_congr _ _ _ (fun a => hperm.mem_iff)
  · rw [vswe_char, vswe_char,
      collapse_of_none_or_empty (PyVal.text "") (Or.inr (by decide)),
      collapse_of_none_or_empty PyVal.none (Or.inl rfl)]
  · rw [vswi_char, vswi_char,
      collapse_of_none_or_empty (PyVal.list []) (Or.inr (by decide)),
      collapse_of_none_or_empty PyVal.none (Or.inl rfl)]
  · rw [vswi_char, vswi_char, if_pos hk, if_pos hk,
      get_set_self _ _ _ (by simp) , get_set_self _ _ _ (by simp)]
    exact nvEq_strset_right_congr _ _ _ (fun a => hperm.mem_iff)
  · rw [vswei_char]
    simp only [iptc_read_char]
    rw [show (if isIptcKey ik = true then img.get ik else PyVal.none) = PyVal.none from ?_,
      if_pos he, hv]
    · rw [collapse_of_not_empty _ (pyLen_list_ne _ hl2)]
      simp
    · by_cases hik2 : isIptcKey ik = true
      · rw [if_pos hik2]
        exact get_none_of_not_mem _ _
          (fun hm => hik ((mem_iptcKeys _ _).mpr ⟨hik2, hm⟩))
      · rw [if_neg hik2]
  · rw [vswei_char]
    simp only [iptc_read_char]
    rw [show (if isIptcKey ik = true then img.get ik else PyVal.none) = PyVal.none from ?_,
      if_pos he, hv]
    · rw [collapse_of_none_or_empty PyVal.none (Or.inl rfl)]
      simp
    · by_cases hik2 : isIptcKey ik = true
      · rw [if_pos hik2]
        exact get_none_of_not_mem _ _
          (fun hm => hik ((mem_iptcKeys _ _).mpr ⟨hik2, hm⟩))
      · rw [if_neg hik2]

theorem normalization_amended_witness :
    value_synced_with_iptc (PyVal.list ["a", "b"]) imgKeywords kwIptcKey =
      value_synced_with_iptc (PyVal.list ["b", "a"]) imgKeywords kwIptcKey ∧
    value_synced_with_iptc (PyVal.list []) imgKeywords kwIptcKey =
      value_synced_with_iptc PyVal.none imgKeywords kwIptcKey ∧
    value_synced_with_iptc (PyVal.list ["a"]) (imgKeywords.set kwIptcKey
        (PyVal.tuple ["x", "y"])) kwIptcKey =
      value_synced_with_iptc (PyVal.list ["a"]) (imgKeywords.set kwIptcKey
        (PyVal.tuple ["y", "x"])) kwIptcKey ∧
    value_synced_with_exif_and_iptc (PyVal.list ["b", "a"]) imgStoredSeq
      descExifKey descIptcKey = false ∧
    value_synced_with_exif_and_iptc PyVal.none imgStoredEmptyText
      descExifKey descIptcKey = false :=
  ⟨((normalization_amended imgKeywords kwIptcKey descExifKey descIptcKey
      (PyVal.list ["a"]) ["a", "b"] ["b", "a"] []).1 (by decide)).2,
   (normalization_amended imgKeywords kwIptcKey descExifKey descIptcKey
      (PyVal.list ["a"]) ["a", "b"] ["b", "a"] []).2.1.2,
   (normalization_amended imgKeywords kwIptcKey descExifKey descIptcKey
      (PyVal.list ["a"]) ["a", "b"] ["b", "a"] []).2.2.1 ["x", "y"] ["y", "x"]
      (by decide) (by decide),
   (normalization_amended imgStoredSeq kwIptcKey descExifKey descIptcKey
      (PyVal.list ["a"]) ["a", "b"] ["b", "a"] ["a", "b"]).2.2.2.1 (by decide)
      (by decide) (by decide) (by decide),
   (normalization_amended imgStoredEmptyText kwIptcKey descExifKey descIptcKey
      (PyVal.list ["a"]) ["a", "b"] ["b", "a"] ["a", "b"]).2.2.2.2 (by decide)
      (by decide) (by decide)⟩

def pCountry : Photo := ⟨"", "", "USA", "", "", "", Option.none, [], 1, 1, true, true⟩

/-- C6 counterexample: with sync enabled and a readable container holding
no `Iptc.Application2.CountryName` tag, the record's `country` ("USA") is
out of sync with the file, yet `sync_metadata_from_file` leaves it "USA"
instead of substituting the empty string the claim requires for a missing
source value. -/
theorem from_file_missing_iptc_counterexample :
    value_synced_with_iptc (PyVal.text "USA") (Image.mk [] []) countryIptcKey = false ∧
    (sync_metadata_from_file pCountry wGood true).1 = true ∧
    (sync_metadata_from_file pCountry wGood true).2.1.country = "USA" ∧
    ¬ (sync_metadata_from_file pCountry wGood true).2.1.country = "" := by decide

/-- C6 amended: with sync enabled and a readable container,
`sync_metadata_from_file` assigns each dual-namespace text field
(description, artist) the merged Exif/IPTC read — substituting the empty
string when no source value exists — whenever the field is out of sync;
for the IPTC-only fields (country, province_state, city, location) the
assignment happens only when the IPTC key is present in the file: with the
key absent the field keeps its previous value even though the field counts
as modified. -/
theorem from_file_text_fields (p : Photo) (w : World) (img : Image) (c : Bool)
    (he : p.metadata_sync_enabled = true) (hf : w.file = ReadResult.ok img) :
    (sync_metadata_from_file p w c).2.1.description =
      (if value_synced_with_exif_and_iptc (PyVal.text p.description) img descExifKey
          descIptcKey = false
       then textOrEmpty (read_value_from_exif_and_iptc img descExifKey descIptcKey)
       else p.description) ∧
    (sync_metadata_from_file p w c).2.1.artist =
      (if value_synced_with_exif_and_iptc (PyVal.text p.artist) img artistExifKey
          artistIptcKey = false
       then textOrEmpty (read_value_from_exif_and_iptc img artistExifKey artistIptcKey)
       else p.artist) ∧
    (sync_metadata_from_file p w c).2.1.country =
      (if countryIptcKey ∈ img.iptcKeys ∧
          value_synced_with_iptc (PyVal.text p.country) img countryIptcKey = false
       then textOrEmpty (img.get countryIptcKey) else p.country) ∧
    (sync_metadata_from_file p w c).2.1.province_state =
      (if provinceIptcKey ∈ img.iptcKeys ∧
          value_synced_with_iptc (PyVal.text p.province_state) img provinceIptcKey = false
       then textOrEmpty (img.get provinceIptcKey) else p.province_state) ∧
    (sync_metadata_from_file p w c).2.1.city =
      (if cityIptcKey ∈ img.iptcKeys ∧
          value_synced_with_iptc (PyVal.text p.city) img cityIptcKey = false
       then textOrEmpty (img.get cityIptcKey) else p.city) ∧
    (sync_metadata_from_file p w c).2.1.location =
      (if locationIptcKey ∈ img.iptcKeys ∧
          value_synced_with_iptc (PyVal.text p.location) img locationIptcKey = false
       then textOrEmpty (img.get locationIptcKey) else p.location) := by
  have hne : ¬ p.metadata_sync_enabled = false := by simp [he]
  refine ⟨?_, ?_, ?_, ?_, ?_, ?_⟩ <;>
    simp [sync_metadata_from_file, if_neg hne, hf, Bool.not_eq_true',
      apply_ite Photo.description, apply_ite Photo.artist, apply_ite Photo.country,
      apply_ite Photo.province_state, apply_ite Photo.city, apply_ite Photo.location,
      apply_ite Prod.fst]

def imgC6 : Image :=
  ⟨[("Exif.Image.ImageDescription", PyVal.text "New"),
    ("Iptc.Application2.City", PyVal.text "Paris")], []⟩
def pC6 : Photo := ⟨"old", "", "USA", "", "", "", Option.none, [], 1, 1, true, true⟩
def wC6 : World := ⟨ReadResult.ok imgC6, true, []⟩

theorem from_file_text_fields_witness :
    (sync_metadata_from_file pC6 wC6 true).2.1.description = "New" ∧
    (sync_metadata_from_file pC6 wC6 true).2.1.city = "Paris" ∧
    (sync_metadata_from_file pC6 wC6 true).2.1.country = "USA" := by
  have h := from_file_text_fields pC6 wC6 imgC6 true rfl rfl
  refine ⟨?_, ?_, ?_⟩
  · rw [h.1]; decide
  · rw [h.2.2.2.2.1]; decide
  · rw [h.2.2.1]; decide

/-- C9: the synthesis path of `create_thumbnail` turns a 640x480 source
into a 160x120 thumbnail — at most the 19,200-pixel budget, with both
dimensions equal to `round(side * sqrt(19200 / 307200))`, preserving the
4:3 ratio — and leaves an 80x60 source (under the budget) at exactly its
own dimensions. -/
theorem thumbnail_budget :
    create_thumbnail_size 640 480 = (160, 120) ∧
    160 * 120 ≤ THUMB_SZ ∧
    thumb_width 640 480 = round ((640 : ℝ) * Real.sqrt (19200 / 307200)) ∧
    thumb_height 640 480 = round ((480 : ℝ) * Real.sqrt (19200 / 307200)) ∧
    create_thumbnail_size 80 60 = (80, 60) := by
  have hs16 : Real.sqrt (16 : ℝ) = 4 := by
    rw [show (16 : ℝ) = 4 ^ 2 by norm_num]
    exact Real.sqrt_sq (by norm_num)
  have hs19 : Real.sqrt (19200 : ℝ) ≠ 0 :=
    ne_of_gt (Real.sqrt_pos.mpr (by norm_num))
  have hcoef : thumb_sz_coefficient 640 480 = 1 / 4 := by
    unfold thumb_sz_coefficient THUMB_SZ
    push_cast
    rw [show (480 : ℝ) * 640 = 16 * 19200 by norm_num,
      Real.sqrt_mul (by norm_num : (0 : ℝ) ≤ 16), hs16]
    field_simp
    ring
  have hw : thumb_width 640 480 = 160 := by
    unfold thumb_width
    rw [hcoef]
    rw [show ((640 : ℕ) : ℝ) * (1 / 4) = ((160 : ℤ) : ℝ) by norm_num]
    exact round_intCast 160
  have hh : thumb_height 640 480 = 120 := by
    unfold thumb_height
    rw [hcoef]
    rw [show ((480 : ℕ) : ℝ) * (1 / 4) = ((120 : ℤ) : ℝ) by norm_num]
    exact round_intCast 120
  have hclaim : Real.sqrt ((19200 : ℝ) / 307200) = 1 / 4 := by
    rw [show (19200 : ℝ) / 307200 = (1 / 4) ^ 2 by norm_num]
    exact Real.sqrt_sq (by norm_num)
  refine ⟨?_, by decide, ?_, ?_, ?_⟩
  · unfold create_thumbnail_size
    rw [if_pos (by norm_num [THUMB_SZ]), hw, hh]
    decide
  · rw [hw, hclaim, show (640 : ℝ) * (1 / 4) = ((160 : ℤ) : ℝ) by norm_num,
      round_intCast]
  · rw [hh, hclaim, show (480 : ℝ) * (1 / 4) = ((120 : ℤ) : ℝ) by norm_num,
      round_intCast]
  · unfold create_thumbnail_size
    rw [if_neg (by norm_num [THUMB_SZ])]

end Photasm
